import Mathlib

/-!
# A shallow embedding of the BASIC-to-C line translator (`src/main.c`)

C strings are modelled by `CStr`, the list of the characters that precede the
terminating NUL; one list element stands for one `char`.  The libc functions the
program calls (`isspace`, `tolower`, `strchr`, `strcasestr`, `strstr`,
`strcasecmp`, `strtok`, `atoi`, `snprintf`, `sprintf`, `strcat`) are modelled
in the "C" locale.  Writes into the fixed-size arrays of the program are
modelled with their capacity: `snprintf` truncates, while `sprintf` and
`strcat` past the end of the array are undefined behaviour and surface as
`Outcome.undefined`, as does `atoi` on a value outside `int`.  Heap allocation
(`strdup`, `malloc`, `realloc`) is taken to succeed, and the `int` counters of
`main` are not taken up to `INT_MAX`; what `main` prints on the terminal (the
prompt and the DEBUG lines) is left out.  The recursion of `interpret_basic` and
the loop over the parameters run on fuel; `interpret_basic_total` shows that
the fuel never runs out.
-/

namespace BASIC

/-- The characters of a NUL-terminated C string, terminator excluded. -/
abbrev CStr := List Char

/-! ## libc -/

/-- Model of `isspace` in the "C" locale: space, `\t`, `\n`, `\v`, `\f`, `\r`. -/
def isspace (c : Char) : Bool :=
  c == ' ' || c == '\t' || c == '\n' || c == '\x0b' || c == '\x0c' || c == '\r'

/-- Model of `tolower` in the "C" locale. -/
def tolower (c : Char) : Char :=
  if 'A'.toNat ≤ c.toNat ∧ c.toNat ≤ 'Z'.toNat then Char.ofNat (c.toNat + 32) else c

/-- Model of `strchr(s, c)` for `c` not NUL: the offset of the first occurrence. -/
def strchr : CStr → Char → Option Nat
  | [], _ => none
  | x :: xs, c => if x = c then some 0 else (strchr xs c).map (· + 1)

/-- Whether `needle` matches at the start of `hay`, ignoring letter case. -/
def startsWithNoCase : CStr → CStr → Bool
  | _, [] => true
  | [], _ :: _ => false
  | h :: hs, n :: ns => tolower h == tolower n && startsWithNoCase hs ns

/-- Model of `strcasestr(hay, needle)`: the offset of the first occurrence,
letter case ignored. -/
def strcasestr : CStr → CStr → Option Nat
  | [], needle => if needle = [] then some 0 else none
  | h :: hs, needle =>
    if startsWithNoCase (h :: hs) needle then some 0
    else (strcasestr hs needle).map (· + 1)

/-- Model of `strstr(hay, needle)`: the offset of the first occurrence. -/
def strstr : CStr → CStr → Option Nat
  | [], needle => if needle = [] then some 0 else none
  | h :: hs, needle =>
    if needle.isPrefixOf (h :: hs) then some 0
    else (strstr hs needle).map (· + 1)

/-- Model of `strcasecmp(a, b) == 0`. -/
def strcasecmp (a b : CStr) : Bool :=
  a.map tolower == b.map tolower

/-- Model of one `strtok` call on the text `s` that is still to be scanned:
leading delimiters are skipped; `none` when nothing is left, otherwise the token
and the text after the delimiter that ended it (what the next call with a NULL
first argument scans). -/
def strtok (s delim : CStr) : Option (CStr × CStr) :=
  let s1 := s.dropWhile (fun c => delim.contains c)
  if s1.isEmpty then none
  else
    some (s1.takeWhile (fun c => !delim.contains c),
          (s1.dropWhile (fun c => !delim.contains c)).drop 1)

/-- Model of `snprintf(buf, size, ...)`, given the fully formatted text: at
most `size - 1` characters are stored. -/
def snprintf (size : Nat) (text : CStr) : CStr :=
  text.take (size - 1)

/-- Model of `sprintf(buf, ...)` into an array of `cap` chars, given the fully
formatted text: `none` when the text and its terminator do not fit. -/
def sprintf (cap : Nat) (text : CStr) : Option CStr :=
  if text.length < cap then some text else none

/-- Model of `strcat(dst, src)` where `dst` is an array of `cap` chars: `none`
when the result and its terminator do not fit. -/
def strcat (cap : Nat) (dst src : CStr) : Option CStr :=
  if dst.length + src.length < cap then some (dst ++ src) else none

/-- Model of `atoi`: leading white space, an optional sign, then decimal digits;
`none` when the value is not representable as a 32-bit `int`. -/
def atoi (s : CStr) : Option Int :=
  let s1 := s.dropWhile isspace
  let neg := s1.head? == some '-'
  let s2 := if s1.head? == some '-' || s1.head? == some '+' then s1.drop 1 else s1
  let n : Nat := (s2.takeWhile Char.isDigit).foldl (fun acc d => 10 * acc + (d.toNat - 48)) 0
  let v : Int := if neg then -(n : Int) else (n : Int)
  if -2147483648 ≤ v ∧ v ≤ 2147483647 then some v else none

/-! ## `trim` and `strcasecmp_prefix` -/

/-- The function `trim` of `src/main.c`, as the new content of the buffer. -/
def trim (str : CStr) : CStr :=
  let start := str.dropWhile isspace
  if start.isEmpty then []
  else (start.reverse.dropWhile isspace).reverse

/-- The function `strcasecmp_prefix` of `src/main.c`. -/
def strcasecmp_prefix : CStr → CStr → Bool
  | [], [] => true
  | c :: _, [] => isspace c
  | [], _ :: _ => false
  | c :: str, p :: pre => if tolower c != tolower p then false else strcasecmp_prefix str pre

/-- In the words of the specification: `line` begins with the word `kw`, letter
case ignored, and the keyword is followed by white space or by the end of the
line. -/
def beginsWithWord (line kw : CStr) : Bool :=
  (line.take kw.length).map tolower == kw.map tolower
    && ((line.drop kw.length).isEmpty || (line.drop kw.length).head?.any isspace)

/-- The text `s` has neither leading nor trailing white space. -/
def trimmed (s : CStr) : Bool :=
  s.head?.all (fun c => !isspace c) && s.getLast?.all (fun c => !isspace c)

/-- A blank follows a non-empty text, nothing follows the empty one. -/
def blankAfter (a : CStr) : CStr := if a.isEmpty then [] else [' ']

/-- The text `x` with one trailing `;` removed, if there is one. -/
def dropSemicolon (x : CStr) : CStr :=
  if x.getLast? = some ';' then x.dropLast else x

/-- A character of an identifier: a letter, a digit or an underscore. -/
def isIdentChar (c : Char) : Bool := c.isAlphanum || c == '_'

/-- An identifier: a non-empty run of letters, digits and underscores. -/
def isIdent (s : CStr) : Bool := !s.isEmpty && s.all isIdentChar

/-- An integer literal: an optional minus sign and a non-empty run of digits. -/
def isIntLiteral (s : CStr) : Bool :=
  match s with
  | '-' :: ds => !ds.isEmpty && ds.all Char.isDigit
  | ds => !ds.isEmpty && ds.all Char.isDigit

/-- The texts of `xs` in order, with `sep` between neighbours. -/
def joinWith (sep : CStr) : List CStr → CStr
  | [] => []
  | [x] => x
  | x :: y :: ys => x ++ sep ++ joinWith sep (y :: ys)

/-- A parameter name with `p.1` blanks before it and `p.2.2` blanks after it. -/
def padded (p : Nat × CStr × Nat) : CStr :=
  List.replicate p.1 ' ' ++ p.2.1 ++ List.replicate p.2.2 ' '

/-- The comparison of a loop header for a step of value `n`. -/
def forComparison (n : Int) : CStr :=
  if n ≥ 0 then "<=".toList else ">=".toList

/-- The increment of a loop header for the loop variable `v` and the step text
`s` of value `n`. -/
def forIncrement (v s : CStr) (n : Int) : CStr :=
  if n = 1 then v ++ "++".toList
  else if n = -1 then v ++ "--".toList
  else v ++ " += ".toList ++ s

/-- The loop header `for (int v = a; v CMP b; INC) {` for a step text `s` of
value `n`. -/
def forHeader (v a b s : CStr) (n : Int) : CStr :=
  "for (int ".toList ++ v ++ " = ".toList ++ a ++ "; ".toList ++ v ++ " ".toList
    ++ forComparison n ++ " ".toList ++ b ++ "; ".toList ++ forIncrement v s n
    ++ ") \x7b".toList

/-! ## `interpret_basic` -/

/-- What a call of `interpret_basic` with a supplied line hands back. -/
inductive Outcome where
  /-- A pointer to the static buffer `output`, holding `text`. -/
  | fragment (text : CStr)
  /-- The NULL pointer. -/
  | null
  /-- The call ran into undefined behaviour. -/
  | undefined
  deriving DecidableEq, Repr

/-- The parameter loop of the `FUNCTION` branch: `param` is the result of the
last `strtok` call, `param_list` the 256-byte array.  The outer `none` means
the fuel ran out, `some none` that a `strcat` overflowed the array. -/
def param_loop : Nat → Option (CStr × CStr) → Bool → CStr → Option (Option CStr)
  | _, none, _, param_list => some (some param_list)
  | 0, some _, _, _ => none
  | fuel + 1, some (param, saved), first, param_list =>
    match (if first then some param_list else strcat 256 param_list ", ".toList) with
    | none => some none
    | some l1 =>
      match strcat 256 l1 "int ".toList with
      | none => some none
      | some l2 =>
        match strcat 256 l2 (trim param) with
        | none => some none
        | some l3 => param_loop fuel (strtok saved ",".toList) false l3

/-- The `FUNCTION` branch of `interpret_basic` when `args` is present. -/
def interpret_function (args : CStr) : Option Outcome :=
  match strchr args '(' with
  | some i =>
    let params0 := args.drop (i + 1)
    let params1 := match strchr params0 ')' with
      | some j => params0.take j
      | none => params0
    let func_name := trim (args.take i)
    let params := trim params1
    if params.length > 0 then
      match param_loop (params.length + 1) (strtok params ",".toList) true [] with
      | none => none
      | some none => some Outcome.undefined
      | some (some param_list) =>
        some (Outcome.fragment (snprintf 1024
          ("int ".toList ++ func_name ++ "(".toList ++ param_list ++ ") \x7b".toList)))
    else
      some (Outcome.fragment (snprintf 1024 ("int ".toList ++ func_name ++ "() \x7b".toList)))
  | none =>
    some (Outcome.fragment (snprintf 1024 ("int ".toList ++ args ++ "() \x7b".toList)))

/-- The end of the `FOR` branch ("Generate C for loop"): the loop header for
the parsed loop variable, start value, end value and step text. -/
def generate_for (loop_var start_val end_val step_val : CStr) : Outcome :=
  match atoi step_val with
  | none => Outcome.undefined
  | some step_num =>
    let comparison := if step_num ≥ 0 then "<=".toList else ">=".toList
    let increment :=
      if step_num ≥ 0 then
        if step_num = 1 then sprintf 20 (loop_var ++ "++".toList)
        else sprintf 20 (loop_var ++ " += ".toList ++ step_val)
      else
        if step_num = -1 then sprintf 20 (loop_var ++ "--".toList)
        else sprintf 20 (loop_var ++ " += ".toList ++ step_val)
    match increment with
    | none => Outcome.undefined
    | some inc =>
      Outcome.fragment (snprintf 1024
        ("for (int ".toList ++ loop_var ++ " = ".toList ++ start_val ++ "; ".toList
          ++ loop_var ++ " ".toList ++ comparison ++ " ".toList ++ end_val
          ++ "; ".toList ++ inc ++ ") \x7b".toList))

/-- The `FOR` branch of `interpret_basic` when `args` is present. -/
def interpret_for (args : CStr) : Outcome :=
  match strchr args '=' with
  | some i =>
    let loop_var := trim (args.take i)
    let rest := trim (args.drop (i + 1))
    match strcasestr rest "TO".toList with
    | some j =>
      let start_val := trim (rest.take j)
      let end_part := trim (rest.drop (j + 2))
      match strcasestr end_part "STEP".toList with
      | some k =>
        generate_for loop_var start_val (trim (end_part.take k)) (trim (end_part.drop (k + 4)))
      | none => generate_for loop_var start_val (trim end_part) "1".toList
    | none => Outcome.fragment (snprintf 1024 "// Syntax error: FOR without TO".toList)
  | none => Outcome.fragment (snprintf 1024 "// Syntax error: FOR without assignment".toList)

/-- The `IF` branch of `interpret_basic`; `recur` stands for the recursive call
on the THEN clause. -/
def interpret_if (recur : CStr → Option Outcome) (args : Option CStr) : Option Outcome :=
  match args with
  | none =>
    some (Outcome.fragment (snprintf 1024 "// Syntax error: IF without condition".toList))
  | some args =>
    match strcasestr args "THEN".toList with
    | none =>
      some (Outcome.fragment (snprintf 1024 "// Syntax error: IF without THEN".toList))
    | some i =>
      let then_pos := (args.drop (i + 4)).dropWhile isspace
      let condition := trim (args.take i)
      match recur then_pos with
      | none => none
      | some Outcome.undefined => some Outcome.undefined
      | some Outcome.null =>
        some (Outcome.fragment (snprintf 1024 "// Error interpreting THEN clause".toList))
      | some (Outcome.fragment then_code) =>
        let clean_then := trim then_code
        let clean_then :=
          if clean_then.getLast? = some ';' then clean_then.dropLast else clean_then
        some (Outcome.fragment (snprintf 1024
          ("if (".toList ++ condition ++ ") \x7b\n    ".toList ++ clean_then
            ++ ";\n  \x7d".toList)))

/-- The body of `interpret_basic` of `src/main.c`, called with a supplied line
(`input` not NULL); `recur` stands for the recursive call in the `IF` branch.
The outer `none` means that a recursion or loop bound of the model was
reached. -/
def interpret_step (recur : CStr → Option Outcome) (current_input : CStr) : Option Outcome :=
    match strtok current_input " ".toList with
    | none => some (Outcome.fragment (snprintf 1024 "// Empty command\n".toList))
    | some (cmd, saved) =>
      let args : Option CStr := (strtok saved []).map Prod.fst
      if (strchr current_input '=').isSome
          && not ( strcasecmp_prefix current_input "LET".toList)
          && not ( strcasecmp_prefix current_input "FUNCTION".toList)
          && not ( strcasecmp_prefix current_input "FOR".toList) then
        some (Outcome.fragment (snprintf 1024 (current_input ++ ";".toList)))
      else if strcasecmp cmd "PRINT".toList then
        match args with
        | some args =>
          if args.head? = some '"' ∧ args.getLast? = some '"' then
            some (Outcome.fragment (snprintf 1024
              ("printf(\"%s\\n\", ".toList ++ args ++ ");".toList)))
          else
            some (Outcome.fragment (snprintf 1024
              ("printf(\"%d\\n\", ".toList ++ args ++ ");".toList)))
        | none => some (Outcome.fragment (snprintf 1024 "printf(\"\\n\");".toList))
      else if strcasecmp cmd "LET".toList then
        match args with
        | some args =>
          some (Outcome.fragment (snprintf 1024 ("int ".toList ++ args ++ ";".toList)))
        | none =>
          some (Outcome.fragment (snprintf 1024 "// Syntax error: LET without variable".toList))
      else if strcasecmp cmd "CHANGE".toList then
        match args with
        | some args => some (Outcome.fragment (snprintf 1024 (args ++ ";".toList)))
        | none =>
          some (Outcome.fragment
            (snprintf 1024 "// Syntax error: CHANGE without assignment".toList))
      else if strcasecmp cmd "INPUT".toList then
        match args with
        | some args =>
          some (Outcome.fragment (snprintf 1024
            ("scanf(\"%d\", &".toList ++ args ++ ");".toList)))
        | none =>
          some (Outcome.fragment (snprintf 1024 "// Syntax error: INPUT without variable".toList))
      else if strcasecmp cmd "FUNCTION".toList then
        match args with
        | some args => interpret_function args
        | none =>
          some (Outcome.fragment (snprintf 1024 "// Syntax error: FUNCTION without name".toList))
      else if strcasecmp cmd "ENDFUNCTION".toList then
        some (Outcome.fragment (snprintf 1024 "\x7dENDFUNCTION".toList))
      else if strcasecmp cmd "RETURN".toList then
        match args with
        | some args =>
          some (Outcome.fragment (snprintf 1024 ("return ".toList ++ args ++ ";".toList)))
        | none => some (Outcome.fragment (snprintf 1024 "return;".toList))
      else if strcasecmp cmd "FOR".toList then
        match args with
        | some args => some (interpret_for args)
        | none =>
          some (Outcome.fragment (snprintf 1024 "// Syntax error: FOR without parameters".toList))
      else if strcasecmp cmd "NEXT".toList then
        some (Outcome.fragment (snprintf 1024 "\x7d".toList))
      else if strcasecmp cmd "CALL".toList then
        match args with
        | some args => some (Outcome.fragment (snprintf 1024 (args ++ ";".toList)))
        | none =>
          some (Outcome.fragment (snprintf 1024 "// Syntax error: CALL without function".toList))
      else if strcasecmp cmd "IF".toList then
        interpret_if recur args
      else
        some (Outcome.fragment (snprintf 1024 ("// Command not recognized: ".toList ++ cmd)))

/-- The function `interpret_basic` with a bound on the depth of its recursion. -/
def interpret_basic_fuel : Nat → CStr → Option Outcome
  | 0, _ => none
  | fuel + 1, current_input => interpret_step (interpret_basic_fuel fuel) current_input

/-- The function `interpret_basic` of `src/main.c`, called with a supplied
line.  Every recursive call is on a shorter text, so the depth bound
`input.length + 1` is never reached (`interpret_basic_total`) and more fuel
changes nothing (`interpret_basic_fuel_enough`). -/
def interpret_basic (input : CStr) : Option Outcome :=
  interpret_basic_fuel (input.length + 1) input

/-- The outcome, if it is a fragment, has at most 1023 characters. -/
def fitsOutput (o : Option Outcome) : Prop :=
  ∀ t, o = some (Outcome.fragment t) → t.length ≤ 1023

/-! ## `main` -/

/-- The variables of `main` that outlive one iteration of its loop: the text
written to `output.c` so far, `in_function`, `function_count` and the buffered
`statements` (`statement_count` is the length of the buffer). -/
structure MainState where
  out : CStr
  in_function : Bool
  function_count : Nat
  statements : List CStr
  deriving DecidableEq, Repr

/-- The state of `main` when its loop is entered: the include line is written. -/
def main_init : MainState :=
  MainState.mk "#include <stdio.h>\n\n".toList false 0 []

/-- The test of `main` for a function definition: the line starts with `int `
and holds `(`, `)` and an opening brace. -/
def is_function_definition (c_line : CStr) : Bool :=
  strstr c_line "int ".toList == some 0 && (strchr c_line '(').isSome
    && (strchr c_line ')').isSome && (strchr c_line '\x7b').isSome

/-- The body of the loop of `main` after `interpret_basic` returned `c_line`. -/
def main_route (st : MainState) (c_line : CStr) : MainState :=
  if is_function_definition c_line then
    MainState.mk (st.out ++ c_line ++ "\n".toList) true (st.function_count + 1) st.statements
  else if c_line = "\x7dENDFUNCTION".toList ∧ st.in_function = true then
    MainState.mk (st.out ++ "\x7d\n\n".toList) false st.function_count st.statements
  else if st.in_function then
    MainState.mk (st.out ++ "  ".toList ++ c_line ++ "\n".toList) st.in_function
      st.function_count st.statements
  else
    MainState.mk st.out st.in_function st.function_count (st.statements ++ [c_line])

/-- The loop of `main` over the lines that `getline` delivers, newline
stripped; the loop is left when the lines are exhausted or `interpret_basic`
returns NULL.  The result is `none` when a line has no defined translation. -/
def main_loop : MainState → List CStr → Option MainState
  | st, [] => some st
  | st, line :: more =>
    match interpret_basic line with
    | some (Outcome.fragment c_line) => main_loop (main_route st c_line) more
    | some Outcome.null => some st
    | _ => none

/-- The lines `  f\n`, one for each of the fragments `fs`: two blanks, the
fragment, a newline. -/
def indentedLines (fs : List CStr) : CStr :=
  (fs.map (fun stmt => "  ".toList ++ stmt ++ "\n".toList)).flatten

/-- The text that `main` writes after its loop. -/
def main_finish (st : MainState) : CStr :=
  if st.statements.length > 0 then
    "int main() \x7b\n".toList
      ++ (st.statements.map (fun stmt => "  ".toList ++ stmt ++ "\n".toList)).flatten
      ++ "  return 0;\n\x7d\n".toList
  else if st.function_count = 0 then
    "int main() \x7b\n  return 0;\n\x7d\n".toList
  else []

/-- The content of `output.c` after `main` has run on the given input lines. -/
def main (lines : List CStr) : Option CStr :=
  (main_loop main_init lines).map (fun st => st.out ++ main_finish st)

/-- The vocabulary of commands. -/
def keywords : List CStr :=
  ["PRINT".toList, "LET".toList, "CHANGE".toList, "INPUT".toList, "FUNCTION".toList,
   "ENDFUNCTION".toList, "RETURN".toList, "FOR".toList, "NEXT".toList, "CALL".toList,
   "IF".toList]

/-- The steps of the loop of `main` on the given lines: for each line that is
processed, the state in which the loop meets it and the fragment it yields. -/
def main_trace : MainState → List CStr → List (MainState × CStr)
  | _, [] => []
  | st, line :: more =>
    match interpret_basic line with
    | some (Outcome.fragment c_line) => (st, c_line) :: main_trace (main_route st c_line) more
    | _ => []

/-! ## Facts about the libc model -/

theorem strchr_isSome_iff (s : CStr) (c : Char) : (strchr s c).isSome = true ↔ c ∈ s := by
  induction s with
  | nil => simp [strchr]
  | cons x xs ih =>
    by_cases hx : x = c
    · simp [strchr, hx]
    · have hx2 : ¬ c = x := fun h => hx h.symm
      simp [strchr, hx, hx2, ← ih]

theorem strchr_eq_none_of_not_mem {s : CStr} {c : Char} (h : c ∉ s) : strchr s c = none := by
  have := strchr_isSome_iff s c
  cases hs : strchr s c with
  | none => rfl
  | some i => rw [hs] at this; exact absurd (this.mp rfl) h

theorem strchr_append_cons (a b : CStr) (c : Char) (h : c ∉ a) :
    strchr (a ++ c :: b) c = some a.length := by
  induction a with
  | nil => simp [strchr]
  | cons x xs ih =>
    have hx : ¬ x = c := fun e => h (by simp [e])
    have hxs : c ∉ xs := fun e => h (by simp [e])
    simp [strchr, hx, ih hxs]

theorem snprintf_of_length_le {n : Nat} {text : CStr} (h : text.length ≤ n - 1) :
    snprintf n text = text := by
  simp [snprintf, List.take_of_length_le h]

theorem length_snprintf_le (n : Nat) (text : CStr) : (snprintf n text).length ≤ n - 1 := by
  simp [snprintf, List.length_take]

theorem strtok_nil_delim (s : CStr) :
    (strtok s []).map Prod.fst = if s = [] then none else some s := by
  cases s with
  | nil => simp [strtok]
  | cons x xs => simp [strtok]

theorem takeWhile_append_stop (p : Char → Bool) (w rest : CStr) (x : Char)
    (hw : ∀ c ∈ w, p c = true) (hx : p x = false) : (w ++ x :: rest).takeWhile p = w := by
  induction w with
  | nil => simp [List.takeWhile, hx]
  | cons y ys ih =>
    have hy : p y = true := hw y (by simp)
    simp [List.takeWhile, hy]
    exact ih (fun c hc => hw c (by simp [hc]))

theorem dropWhile_append_stop (p : Char → Bool) (w rest : CStr) (x : Char)
    (hw : ∀ c ∈ w, p c = true) (hx : p x = false) : (w ++ x :: rest).dropWhile p = x :: rest := by
  induction w with
  | nil => simp [List.dropWhile, hx]
  | cons y ys ih =>
    have hy : p y = true := hw y (by simp)
    simp [List.dropWhile, hy]
    exact ih (fun c hc => hw c (by simp [hc]))

theorem dropWhile_eq_self_of_head (p : Char → Bool) (x : Char) (xs : CStr) (hx : p x = false) :
    (x :: xs).dropWhile p = x :: xs := by
  simp [List.dropWhile, hx]

/-- The first `strtok` call on a line made of spaces, a word without spaces and,
after one space, the rest. -/
theorem strtok_spaces_word_rest (k : Nat) (w rest : CStr) (hw : w ≠ []) (hns : ' ' ∉ w) :
    strtok (List.replicate k ' ' ++ w ++ ' ' :: rest) " ".toList = some (w, rest) := by
  have h1 : (List.replicate k ' ' ++ w ++ ' ' :: rest).dropWhile (fun c => " ".toList.contains c)
      = w ++ ' ' :: rest := by
    induction k with
    | zero =>
      cases w with
      | nil => exact absurd rfl hw
      | cons y ys =>
        have : y ≠ ' ' := fun e => hns (by simp [e])
        simp [List.dropWhile, this]
    | succ k ih => simpa [List.replicate_succ, List.dropWhile] using ih
  have hne : (w ++ ' ' :: rest).isEmpty = false := by cases w <;> simp
  have h2 : (w ++ ' ' :: rest).takeWhile (fun c => !" ".toList.contains c) = w :=
    takeWhile_append_stop _ w rest ' ' (fun c hc => by
      have : c ≠ ' ' := fun e => hns (e ▸ hc)
      simp [this]) (by simp)
  have h3 : (w ++ ' ' :: rest).dropWhile (fun c => !" ".toList.contains c) = ' ' :: rest :=
    dropWhile_append_stop _ w rest ' ' (fun c hc => by
      have : c ≠ ' ' := fun e => hns (e ▸ hc)
      simp [this]) (by simp)
  unfold strtok
  simp only [h1, hne, h2, h3]
  simp

theorem interpret_basic_eq_step (input : CStr) :
    interpret_basic input = interpret_step (interpret_basic_fuel input.length) input := rfl

theorem print_quoted_gen (s : CStr) (h : '=' ∉ s) :
    interpret_basic ("PRINT \"".toList ++ s ++ "\"".toList)
      = some (Outcome.fragment (snprintf 1024 ("printf(\"%s\\n\", \"".toList ++ s ++ "\");".toList))) := by
  have hk : strtok ("PRINT \"".toList ++ s ++ "\"".toList) " ".toList
      = some ("PRINT".toList, '"' :: (s ++ ['"'])) := by
    have := strtok_spaces_word_rest 0 "PRINT".toList ('"' :: (s ++ ['"'])) (by simp) (by simp)
    simpa using this
  have hc : strchr ("PRINT \"".toList ++ s ++ "\"".toList) '=' = none :=
    strchr_eq_none_of_not_mem (by simp [h])
  have hl : ('"' :: (s ++ ['"'])).getLast? = some '"' := by
    rw [← List.cons_append, List.getLast?_append]; simp
  rw [interpret_basic_eq_step]
  simp only [interpret_step, hk, hc, strtok_nil_delim]
  simp +decide [hl]

theorem strcasecmp_prefix_eq (line kw : CStr) :
    strcasecmp_prefix line kw = beginsWithWord line kw := by
  induction kw generalizing line with
  | nil => cases line <;> simp [beginsWithWord, strcasecmp_prefix]
  | cons p pre ih =>
    cases line with
    | nil => simp [beginsWithWord, strcasecmp_prefix]
    | cons c str =>
      by_cases hc : tolower c = tolower p
      · simp [beginsWithWord, strcasecmp_prefix, hc, ih]
      · simp [beginsWithWord, strcasecmp_prefix, hc]

theorem strtok_ne_none_of_mem (s delim : CStr) (c : Char) (hc : c ∈ s)
    (hd : delim.contains c = false) : ∃ cmd saved, strtok s delim = some (cmd, saved) := by
  have hne : s.dropWhile (fun c => delim.contains c) ≠ [] := by
    intro h
    rw [List.dropWhile_eq_nil_iff] at h
    have := h c hc
    rw [hd] at this
    exact Bool.false_ne_true this
  have hne2 : (s.dropWhile (fun c => delim.contains c)).isEmpty = false := by
    cases hs : s.dropWhile (fun c => delim.contains c) with
    | nil => exact absurd hs hne
    | cons _ _ => rfl
  exact ⟨_, _, by unfold strtok; simp only [hne2]; rfl⟩

theorem bare_assignment_gen (line : CStr) (heq : '=' ∈ line)
    (hLET : beginsWithWord line "LET".toList = false)
    (hFUNCTION : beginsWithWord line "FUNCTION".toList = false)
    (hFOR : beginsWithWord line "FOR".toList = false) :
    interpret_basic line = some (Outcome.fragment (snprintf 1024 (line ++ ";".toList))) := by
  obtain ⟨cmd, saved, hk⟩ := strtok_ne_none_of_mem line " ".toList '=' heq (by decide)
  have hc : (strchr line '=').isSome = true := (strchr_isSome_iff line '=').mpr heq
  rw [interpret_basic_eq_step]
  simp only [interpret_step, hk, hc, strcasecmp_prefix_eq, hLET, hFUNCTION, hFOR]
  simp

theorem length_dropWhile_le (p : Char → Bool) (s : CStr) : (s.dropWhile p).length ≤ s.length := by
  induction s with
  | nil => simp
  | cons x xs ih =>
    rw [List.dropWhile_cons]
    split
    · exact Nat.le_succ_of_le ih
    · exact Nat.le_refl _

theorem strtok_saved_length (s delim tok saved : CStr) (h : strtok s delim = some (tok, saved)) :
    saved.length < s.length := by
  unfold strtok at h
  cases hs : s.dropWhile (fun c => delim.contains c) with
  | nil =>
    simp only [hs, List.isEmpty_nil, if_true] at h
    cases h
  | cons y ys =>
    simp only [hs, List.isEmpty_cons, Bool.false_eq_true, if_false, Option.some.injEq,
      Prod.mk.injEq] at h
    have h1 := length_dropWhile_le (fun c => delim.contains c) s
    have h2 := length_dropWhile_le (fun c => !delim.contains c) (y :: ys)
    rw [hs] at h1
    rw [← h.2, List.length_drop]
    simp only [List.length_cons] at h1 h2
    omega

theorem interpret_if_congr (r1 r2 : CStr → Option Outcome) (args : Option CStr)
    (h : ∀ a y, args = some a → y.length ≤ a.length → r1 y = r2 y) :
    interpret_if r1 args = interpret_if r2 args := by
  cases args with
  | none => rfl
  | some a =>
    simp only [interpret_if]
    cases hs : strcasestr a "THEN".toList with
    | none => rfl
    | some i =>
      have hlen : ((a.drop (i + 4)).dropWhile isspace).length ≤ a.length := by
        have := length_dropWhile_le isspace (a.drop (i + 4))
        rw [List.length_drop] at this
        omega
      simp only [h a _ rfl hlen]

theorem interpret_step_congr (r1 r2 : CStr → Option Outcome) (x : CStr)
    (h : ∀ y, y.length < x.length → r1 y = r2 y) :
    interpret_step r1 x = interpret_step r2 x := by
  unfold interpret_step
  cases hk : strtok x " ".toList with
  | none => rfl
  | some p =>
    obtain ⟨cmd, saved⟩ := p
    have hsaved := strtok_saved_length x _ cmd saved hk
    have hif : interpret_if r1 ((strtok saved []).map Prod.fst)
        = interpret_if r2 ((strtok saved []).map Prod.fst) := by
      apply interpret_if_congr
      intro a y ha hy
      rw [strtok_nil_delim] at ha
      split at ha
      · cases ha
      · cases ha
        exact h y (by omega)
    simp only [hif]

theorem interpret_basic_fuel_eq (n m : Nat) (x : CStr) (hn : x.length < n) (hm : x.length < m) :
    interpret_basic_fuel n x = interpret_basic_fuel m x := by
  induction n generalizing m x with
  | zero => omega
  | succ n ih =>
    cases m with
    | zero => omega
    | succ m =>
      simp only [interpret_basic_fuel]
      exact interpret_step_congr _ _ x (fun y hy => ih m y (by omega) (by omega))

/-- With enough fuel the bounded function agrees with `interpret_basic`. -/
theorem interpret_basic_fuel_enough (n : Nat) (x : CStr) (hn : x.length < n) :
    interpret_basic_fuel n x = interpret_basic x :=
  interpret_basic_fuel_eq n (x.length + 1) x hn (Nat.lt_succ_self _)

/-! ## Facts about `trim` -/

theorem trim_nil : trim [] = [] := rfl

theorem trim_cons_space (c : Char) (s : CStr) (hc : isspace c = true) : trim (c :: s) = trim s := by
  simp [trim, List.dropWhile_cons, hc]

theorem trim_append_space (s : CStr) (c : Char) (hc : isspace c = true) :
    trim (s ++ [c]) = trim s := by
  unfold trim
  rw [List.dropWhile_append]
  cases hs : s.dropWhile isspace with
  | nil => simp [hc]
  | cons y ys => simp [List.dropWhile_cons, hc]

theorem trim_of_trimmed (s : CStr) (h : trimmed s = true) : trim s = s := by
  cases s with
  | nil => rfl
  | cons x xs =>
    simp only [trimmed, Bool.and_eq_true] at h
    have hx : isspace x = false := by simpa using h.1
    have hl : ∀ c, (x :: xs).getLast? = some c → isspace c = false := by
      intro c hc
      have := h.2
      rw [hc] at this
      simpa using this
    have h1 : (x :: xs).dropWhile isspace = x :: xs := by simp [List.dropWhile_cons, hx]
    have h2 : (x :: xs).reverse.dropWhile isspace = (x :: xs).reverse := by
      cases hr : (x :: xs).reverse with
      | nil => simp at hr
      | cons z zs =>
        have hz : (x :: xs).getLast? = some z := by
          rw [List.getLast?_eq_head?_reverse, hr]; rfl
        simp [List.dropWhile_cons, hl z hz]
    simp only [trim, h1, h2, List.isEmpty_cons, Bool.false_eq_true, if_false, List.reverse_reverse]

/-! ## Facts about `strcasestr` -/

theorem startsWithNoCase_append_self (n t : CStr) : startsWithNoCase (n ++ t) n = true := by
  induction n with
  | nil => cases t <;> rfl
  | cons m ns ih => simp [startsWithNoCase, ih]

theorem startsWithNoCase_append_sep (a n t : CStr) (sep : Char)
    (ha : startsWithNoCase a n = false) (hsep : ∀ c ∈ n, tolower sep ≠ tolower c) :
    startsWithNoCase (a ++ sep :: t) n = false := by
  induction a generalizing n with
  | nil =>
    cases n with
    | nil => simp [startsWithNoCase] at ha
    | cons m ns => simp [startsWithNoCase, hsep m (by simp)]
  | cons x xs ih =>
    cases n with
    | nil => simp [startsWithNoCase] at ha
    | cons m ns =>
      simp only [startsWithNoCase, List.cons_append, Bool.and_eq_false_imp, beq_iff_eq] at ha ⊢
      intro hx
      exact ih ns (ha hx) (fun c hc => hsep c (by simp [hc]))

theorem strcasestr_append_self (n t : CStr) : strcasestr (n ++ t) n = some 0 := by
  cases h : n ++ t with
  | nil =>
    have : n = [] := (List.append_eq_nil.mp h).1
    simp [strcasestr, this]
  | cons x xs =>
    have := startsWithNoCase_append_self n t
    rw [h] at this
    simp [strcasestr, this]

theorem strcasestr_cons_none (x : Char) (xs n : CStr) (h : strcasestr (x :: xs) n = none) :
    startsWithNoCase (x :: xs) n = false ∧ strcasestr xs n = none := by
  unfold strcasestr at h
  split at h
  · cases h
  · rename_i hs
    refine ⟨by simpa using hs, ?_⟩
    cases h2 : strcasestr xs n with
    | none => rfl
    | some i => rw [h2] at h; cases h

theorem strcasestr_nil_none (n : CStr) (h : strcasestr [] n = none) : n ≠ [] := by
  intro e
  simp [strcasestr, e] at h

theorem strcasestr_ne_nil_of_none (a n : CStr) (h : strcasestr a n = none) : n ≠ [] := by
  intro e
  subst e
  cases a <;> simp [strcasestr, startsWithNoCase] at h

theorem strcasestr_replicate_none (k : Nat) (c m : Char) (ns : CStr)
    (h : tolower c ≠ tolower m) : strcasestr (List.replicate k c) (m :: ns) = none := by
  induction k with
  | zero => simp [strcasestr]
  | succ k ih => simp [List.replicate_succ, strcasestr, startsWithNoCase, h, ih]

/-- The keyword `n`, set off by `sep` from a text `a` in which it does not occur, is
first found right after the separator. -/
theorem strcasestr_append_sep (a n t : CStr) (sep : Char)
    (ha : strcasestr a n = none) (hsep : ∀ c ∈ n, tolower sep ≠ tolower c) :
    strcasestr (a ++ sep :: (n ++ t)) n = some (a.length + 1) := by
  have hn := strcasestr_ne_nil_of_none a n ha
  induction a with
  | nil =>
    have h1 : startsWithNoCase (sep :: (n ++ t)) n = false := by
      cases n with
      | nil => exact absurd rfl hn
      | cons m ns => simp [startsWithNoCase, hsep m (by simp)]
    simp [strcasestr, h1, strcasestr_append_self]
  | cons x xs ih =>
    obtain ⟨h1, h2⟩ := strcasestr_cons_none x xs n ha
    have h3 := startsWithNoCase_append_sep (x :: xs) n (n ++ t) sep h1 hsep
    simp only [List.cons_append] at h3 ⊢
    simp [strcasestr, h3, ih h2]

/-- The same with the separator left out when `a` is empty. -/
theorem strcasestr_append_blankAfter (a n t : CStr)
    (ha : strcasestr a n = none) (hsep : ∀ c ∈ n, tolower ' ' ≠ tolower c) :
    strcasestr (a ++ blankAfter a ++ (n ++ t)) n = some (a ++ blankAfter a).length := by
  cases a with
  | nil => exact strcasestr_append_self n t
  | cons x xs =>
    have hb : blankAfter (x :: xs) = [' '] := rfl
    rw [hb]
    have := strcasestr_append_sep (x :: xs) n t ' ' ha hsep
    simpa using this

theorem if_then_gen (c s t : CStr) (hc : strcasestr c "THEN".toList = none)
    (hceq : '=' ∉ c) (hseq : '=' ∉ s)
    (ht : interpret_basic (s.dropWhile isspace) = some (Outcome.fragment t)) :
    interpret_basic ("IF ".toList ++ c ++ " THEN ".toList ++ s)
      = some (Outcome.fragment (snprintf 1024
          ("if (".toList ++ trim c ++ ") \x7b\n    ".toList ++ dropSemicolon (trim t)
            ++ ";\n  \x7d".toList))) := by
  have hline : "IF ".toList ++ c ++ " THEN ".toList ++ s
      = List.replicate 0 ' ' ++ "IF".toList ++ ' ' :: (c ++ ' ' :: ("THEN".toList ++ ' ' :: s)) := by
    simp
  have hk := strtok_spaces_word_rest 0 "IF".toList (c ++ ' ' :: ("THEN".toList ++ ' ' :: s))
    (by simp) (by simp)
  rw [← hline] at hk
  have hchr : strchr ("IF ".toList ++ c ++ " THEN ".toList ++ s) '=' = none :=
    strchr_eq_none_of_not_mem (by simp [hceq, hseq])
  have hargs : (strtok (c ++ ' ' :: ("THEN".toList ++ ' ' :: s)) []).map Prod.fst
      = some (c ++ ' ' :: ("THEN".toList ++ ' ' :: s)) := by
    rw [strtok_nil_delim]; simp
  have hfind := strcasestr_append_sep c "THEN".toList (' ' :: s) ' ' hc (by decide)
  have htake : (c ++ ' ' :: ("THEN".toList ++ ' ' :: s)).take (c.length + 1) = c ++ [' '] := by
    have e : c ++ ' ' :: ("THEN".toList ++ ' ' :: s) = (c ++ [' ']) ++ ("THEN".toList ++ ' ' :: s) := by
      simp
    rw [e]; exact List.take_left' (by simp)
  have hdrop : (c ++ ' ' :: ("THEN".toList ++ ' ' :: s)).drop (c.length + 1 + 4) = ' ' :: s := by
    have e : c ++ ' ' :: ("THEN".toList ++ ' ' :: s) = (c ++ ' ' :: "THEN".toList) ++ (' ' :: s) := by
      simp
    rw [e]; exact List.drop_left' (by simp)
  have hrec : interpret_basic_fuel ("IF ".toList ++ c ++ " THEN ".toList ++ s).length
      (s.dropWhile isspace) = some (Outcome.fragment t) := by
    rw [interpret_basic_fuel_enough _ _ ?_, ht]
    have := length_dropWhile_le isspace s
    simp
    omega
  rw [interpret_basic_eq_step]
  simp only [interpret_step, hk, hchr, hargs]
  simp +decide only [Option.isSome_none, Bool.false_and, Bool.false_eq_true, if_false, if_true]
  simp only [interpret_if, hfind, htake, hdrop, trim_append_space _ _ (show isspace ' ' = true by decide)]
  have hd : List.dropWhile isspace (' ' :: s) = List.dropWhile isspace s := by
    simp [List.dropWhile_cons, show isspace ' ' = true by decide]
  rw [hd, hrec]
  rfl

theorem not_mem_of_strcasecmp (kw w : CStr) (c : Char) (h : strcasecmp kw w = true)
    (hc : tolower c ∉ w.map tolower) : c ∉ kw := by
  intro hm
  simp only [strcasecmp, beq_iff_eq] at h
  apply hc
  rw [← h]
  exact List.mem_map_of_mem tolower hm

theorem ne_nil_of_strcasecmp (kw w : CStr) (h : strcasecmp kw w = true) (hw : w ≠ []) :
    kw ≠ [] := by
  intro e
  subst e
  cases w with
  | nil => exact hw rfl
  | cons x xs => simp [strcasecmp] at h

/-- The first `strtok` call on a line made of spaces and a word without spaces. -/
theorem strtok_spaces_word_end (k : Nat) (w : CStr) (hw : w ≠ []) (hns : ' ' ∉ w) :
    strtok (List.replicate k ' ' ++ w) " ".toList = some (w, []) := by
  have hp : ∀ c ∈ w, (!" ".toList.contains c) = true := fun c hc => by
    have : c ≠ ' ' := fun e => hns (e ▸ hc)
    simp [this]
  have h1 : (List.replicate k ' ' ++ w).dropWhile (fun c => " ".toList.contains c) = w := by
    induction k with
    | zero =>
      cases w with
      | nil => exact absurd rfl hw
      | cons y ys =>
        have : y ≠ ' ' := fun e => hns (by simp [e])
        simp [List.dropWhile, this]
    | succ k ih => simpa [List.replicate_succ, List.dropWhile] using ih
  have hne : w.isEmpty = false := by cases w <;> simp at hw ⊢
  have h2 : w.takeWhile (fun c => !" ".toList.contains c) = w :=
    List.takeWhile_eq_self_iff.mpr hp
  have h3 : w.dropWhile (fun c => !" ".toList.contains c) = [] :=
    List.dropWhile_eq_nil_iff.mpr hp
  unfold strtok
  simp only [h1, hne, h2, h3]
  simp

theorem if_no_then_gen (k : Nat) (kw args : CStr) (hkw : strcasecmp kw "IF".toList = true)
    (hthen : strcasestr args "THEN".toList = none) (heq : '=' ∉ args) :
    interpret_basic (List.replicate k ' ' ++ kw)
        = some (Outcome.fragment "// Syntax error: IF without condition".toList)
    ∧ interpret_basic (List.replicate k ' ' ++ kw ++ ' ' :: args)
        = some (Outcome.fragment
            (if args.isEmpty then "// Syntax error: IF without condition".toList
             else "// Syntax error: IF without THEN".toList)) := by
  have hne := ne_nil_of_strcasecmp kw _ hkw (by simp)
  have hsp : ' ' ∉ kw := not_mem_of_strcasecmp kw _ ' ' hkw (by decide)
  have hkeq : '=' ∉ kw := not_mem_of_strcasecmp kw _ '=' hkw (by decide)
  have hmap : kw.map tolower = ['i', 'f'] := by
    have := hkw
    simp only [strcasecmp, beq_iff_eq] at this
    rw [this]; decide
  have hrep : '=' ∉ List.replicate k ' ' := by
    intro h
    have := List.eq_of_mem_replicate h
    exact absurd this (by decide)
  constructor
  · have hk := strtok_spaces_word_end k kw hne hsp
    have hchr : strchr (List.replicate k ' ' ++ kw) '=' = none :=
      strchr_eq_none_of_not_mem (by simp [hrep, hkeq])
    rw [interpret_basic_eq_step]
    simp only [interpret_step, hk, hchr, strcasecmp, hmap]
    simp +decide [strtok, interpret_if, snprintf]
  · have hk := strtok_spaces_word_rest k kw args hne hsp
    have hchr : strchr (List.replicate k ' ' ++ kw ++ ' ' :: args) '=' = none :=
      strchr_eq_none_of_not_mem (by simp [hrep, hkeq, heq])
    rw [interpret_basic_eq_step]
    simp only [interpret_step, hk, hchr, strcasecmp, hmap, strtok_nil_delim]
    cases args with
    | nil => simp +decide [interpret_if, snprintf]
    | cons x xs =>
      have hthen2 : strcasestr (x :: xs) ['T', 'H', 'E', 'N'] = none := hthen
      simp +decide [interpret_if, snprintf, hthen2]

theorem trimmed_cons_append (x : Char) (mid s : CStr) (hx : isspace x = false)
    (hs : trimmed s = true) (hne : s ≠ []) : trimmed (x :: (mid ++ s)) = true := by
  simp only [trimmed, Bool.and_eq_true] at hs ⊢
  refine ⟨by simpa using hx, ?_⟩
  rw [← List.cons_append, List.getLast?_append]
  cases hg : s.getLast? with
  | none =>
    rw [List.getLast?_eq_none_iff] at hg
    exact absurd hg hne
  | some z =>
    have := hs.2
    rw [hg] at this
    simpa using this

theorem dropWhile_dropWhile (p : Char → Bool) (s : CStr) :
    (s.dropWhile p).dropWhile p = s.dropWhile p := by
  induction s with
  | nil => rfl
  | cons x xs ih =>
    by_cases hx : p x = true
    · simp [List.dropWhile_cons, hx, ih]
    · simp [List.dropWhile_cons, hx]

theorem trim_dropWhile (s : CStr) : trim (s.dropWhile isspace) = trim s := by
  simp only [trim, dropWhile_dropWhile]

theorem trim_append_of_spaces (ws s : CStr) (h : ∀ c ∈ ws, isspace c = true) :
    trim (ws ++ s) = trim s := by
  induction ws with
  | nil => rfl
  | cons x xs ih =>
    rw [List.cons_append, trim_cons_space _ _ (h x (by simp))]
    exact ih (fun c hc => h c (by simp [hc]))

theorem trim_append_eq_trim_dropWhile_append (a t : CStr) :
    trim (a ++ t) = trim (a.dropWhile isspace ++ t) := by
  have e : a = a.takeWhile isspace ++ a.dropWhile isspace :=
    (List.takeWhile_append_dropWhile isspace a).symm
  have h := trim_append_of_spaces (a.takeWhile isspace) (a.dropWhile isspace ++ t)
    (fun c hc => (List.mem_takeWhile_imp hc))
  rw [← List.append_assoc, ← e] at h
  exact h

theorem head_dropWhile_isspace (a : CStr) (x : Char) (xs : CStr)
    (h : a.dropWhile isspace = x :: xs) : isspace x = false := by
  have := List.head?_dropWhile_not isspace a
  rw [h] at this
  simpa using this

theorem trim_append_blankAfter_dropWhile (a : CStr) :
    trim (a.dropWhile isspace ++ blankAfter (a.dropWhile isspace)) = trim a := by
  cases h : a.dropWhile isspace with
  | nil => simp [blankAfter, trim, h]
  | cons x xs =>
    have : blankAfter (x :: xs) = [' '] := rfl
    rw [this, trim_append_space _ _ (by decide), ← h, trim_dropWhile]

/-- The text after a blank, once trimmed: `a` without its leading white space, a
blank if that is not empty, then `t`. -/
theorem trim_blank_cons (a t : CStr) (ht : trimmed t = true) (hne : t ≠ []) :
    trim (' ' :: (a ++ ' ' :: t))
      = a.dropWhile isspace ++ blankAfter (a.dropWhile isspace) ++ t := by
  rw [trim_cons_space _ _ (by decide), trim_append_eq_trim_dropWhile_append]
  cases h : a.dropWhile isspace with
  | nil =>
    have : blankAfter [] = [] := rfl
    rw [this]
    simp only [List.nil_append]
    rw [trim_cons_space _ _ (by decide), trim_of_trimmed _ ht]
  | cons x xs =>
    have hb : blankAfter (x :: xs) = [' '] := rfl
    rw [hb]
    have hx := head_dropWhile_isspace a x xs h
    have h1 : trimmed (x :: ((xs ++ [' ']) ++ t)) = true := trimmed_cons_append x _ t hx ht hne
    have e : (x :: xs) ++ ' ' :: t = x :: ((xs ++ [' ']) ++ t) := by simp
    rw [e, trim_of_trimmed _ h1]
    simp

theorem strcasestr_dropWhile_none (a n : CStr) (h : strcasestr a n = none) :
    strcasestr (a.dropWhile isspace) n = none := by
  induction a with
  | nil => exact h
  | cons x xs ih =>
    rw [List.dropWhile_cons]
    split
    · exact ih (strcasestr_cons_none x xs n h).2
    · exact h

theorem drop_length_succ_append_cons (l : CStr) (x : Char) (t : CStr) :
    (l ++ x :: t).drop (l.length + 1) = t := by
  have e : l ++ x :: t = (l ++ [x]) ++ t := by simp
  rw [e]; exact List.drop_left' (by simp)

theorem drop_length_add_append (l t : CStr) (k : Nat) :
    (l ++ t).drop (l.length + k) = t.drop k := by
  induction l with
  | nil => simp
  | cons x xs ih =>
    have : (x :: xs).length + k = (xs.length + k) + 1 := by simp; omega
    rw [this]
    simp

/-- The `FOR` branch on `v = a TO b STEP s`: the parts are trimmed and handed
to `generate_for`. -/
theorem interpret_for_step (v a b s : CStr) (hveq : '=' ∉ v)
    (hato : strcasestr a "TO".toList = none) (hbstep : strcasestr b "STEP".toList = none)
    (hs : trimmed s = true) (hsne : s ≠ []) :
    interpret_for (v ++ " = ".toList ++ a ++ " TO ".toList ++ b ++ " STEP ".toList ++ s)
      = generate_for (trim v) (trim a) (trim b) s := by
  have hsp : isspace ' ' = true := by decide
  have e0 : v ++ " = ".toList ++ a ++ " TO ".toList ++ b ++ " STEP ".toList ++ s
      = (v ++ [' ']) ++ '=' :: (' ' :: (a ++ ' ' :: ("TO".toList ++ (' ' :: (b ++ ' ' :: ("STEP".toList ++ ' ' :: s)))))) := by
    simp
  have hchr := strchr_append_cons (v ++ [' '])
    (' ' :: (a ++ ' ' :: ("TO".toList ++ (' ' :: (b ++ ' ' :: ("STEP".toList ++ ' ' :: s)))))) '='
    (by simp [hveq])
  have htr2 : trimmed ("STEP".toList ++ ' ' :: s) = true :=
    trimmed_cons_append 'S' ("TEP ".toList) s (by decide) hs hsne
  have ht2ne : "STEP".toList ++ ' ' :: s ≠ [] := by simp
  have htr1 : trimmed ("TO".toList ++ (' ' :: (b ++ ' ' :: ("STEP".toList ++ ' ' :: s)))) = true := by
    have := trimmed_cons_append 'T' ("O ".toList ++ b ++ " STEP ".toList) s (by decide) hs hsne
    simpa using this
  have hrest := trim_blank_cons a ("TO".toList ++ (' ' :: (b ++ ' ' :: ("STEP".toList ++ ' ' :: s))))
    htr1 (by simp)
  have hto := strcasestr_append_blankAfter (a.dropWhile isspace) "TO".toList
    (' ' :: (b ++ ' ' :: ("STEP".toList ++ ' ' :: s))) (strcasestr_dropWhile_none a _ hato)
    (by decide)
  have hend := trim_blank_cons b ("STEP".toList ++ ' ' :: s) htr2 ht2ne
  have hstep := strcasestr_append_blankAfter (b.dropWhile isspace) "STEP".toList (' ' :: s)
    (strcasestr_dropWhile_none b _ hbstep) (by decide)
  have hd1 : List.drop ((v ++ [' ']).length + 1)
      ((v ++ [' ']) ++ '=' :: (' ' :: (a ++ ' ' :: ("TO".toList ++ (' ' :: (b ++ ' ' :: ("STEP".toList ++ ' ' :: s)))))))
      = ' ' :: (a ++ ' ' :: ("TO".toList ++ (' ' :: (b ++ ' ' :: ("STEP".toList ++ ' ' :: s))))) :=
    drop_length_succ_append_cons _ _ _
  have ht1 : List.take (v ++ [' ']).length
      ((v ++ [' ']) ++ '=' :: (' ' :: (a ++ ' ' :: ("TO".toList ++ (' ' :: (b ++ ' ' :: ("STEP".toList ++ ' ' :: s)))))))
      = v ++ [' '] := List.take_left' rfl
  have hd2 : List.drop ((a.dropWhile isspace ++ blankAfter (a.dropWhile isspace)).length + 2)
      (a.dropWhile isspace ++ blankAfter (a.dropWhile isspace)
        ++ ("TO".toList ++ (' ' :: (b ++ ' ' :: ("STEP".toList ++ ' ' :: s)))))
      = ' ' :: (b ++ ' ' :: ("STEP".toList ++ ' ' :: s)) := by
    rw [drop_length_add_append]; rfl
  have ht2 : List.take (a.dropWhile isspace ++ blankAfter (a.dropWhile isspace)).length
      (a.dropWhile isspace ++ blankAfter (a.dropWhile isspace)
        ++ ("TO".toList ++ (' ' :: (b ++ ' ' :: ("STEP".toList ++ ' ' :: s)))))
      = a.dropWhile isspace ++ blankAfter (a.dropWhile isspace) := List.take_left' rfl
  have hd3 : List.drop ((b.dropWhile isspace ++ blankAfter (b.dropWhile isspace)).length + 4)
      (b.dropWhile isspace ++ blankAfter (b.dropWhile isspace) ++ ("STEP".toList ++ ' ' :: s))
      = ' ' :: s := by
    rw [drop_length_add_append]; rfl
  have ht3 : List.take (b.dropWhile isspace ++ blankAfter (b.dropWhile isspace)).length
      (b.dropWhile isspace ++ blankAfter (b.dropWhile isspace) ++ ("STEP".toList ++ ' ' :: s))
      = b.dropWhile isspace ++ blankAfter (b.dropWhile isspace) := List.take_left' rfl
  rw [e0]
  simp only [interpret_for, hchr, hd1, ht1, hrest, hto, hd2, ht2, hend, hstep, hd3, ht3,
    trim_append_blankAfter_dropWhile, trim_append_space v ' ' hsp,
    trim_cons_space ' ' s hsp, trim_of_trimmed s hs]

/-- The `FOR` branch on `v = a TO b` without a STEP clause. -/
theorem interpret_for_nostep (v a b : CStr) (hveq : '=' ∉ v)
    (hato : strcasestr a "TO".toList = none)
    (hb : trimmed b = true) (hbne : b ≠ []) (hbstep : strcasestr b "STEP".toList = none) :
    interpret_for (v ++ " = ".toList ++ a ++ " TO ".toList ++ b)
      = generate_for (trim v) (trim a) b "1".toList := by
  have hsp : isspace ' ' = true := by decide
  have e0 : v ++ " = ".toList ++ a ++ " TO ".toList ++ b
      = (v ++ [' ']) ++ '=' :: (' ' :: (a ++ ' ' :: ("TO".toList ++ (' ' :: b)))) := by
    simp
  have hchr := strchr_append_cons (v ++ [' ']) (' ' :: (a ++ ' ' :: ("TO".toList ++ (' ' :: b)))) '='
    (by simp [hveq])
  have htr1 : trimmed ("TO".toList ++ (' ' :: b)) = true :=
    trimmed_cons_append 'T' ("O ".toList) b (by decide) hb hbne
  have hrest := trim_blank_cons a ("TO".toList ++ (' ' :: b)) htr1 (by simp)
  have hto := strcasestr_append_blankAfter (a.dropWhile isspace) "TO".toList (' ' :: b)
    (strcasestr_dropWhile_none a _ hato) (by decide)
  have hd1 : List.drop ((v ++ [' ']).length + 1)
      ((v ++ [' ']) ++ '=' :: (' ' :: (a ++ ' ' :: ("TO".toList ++ (' ' :: b)))))
      = ' ' :: (a ++ ' ' :: ("TO".toList ++ (' ' :: b))) :=
    drop_length_succ_append_cons _ _ _
  have ht1 : List.take (v ++ [' ']).length
      ((v ++ [' ']) ++ '=' :: (' ' :: (a ++ ' ' :: ("TO".toList ++ (' ' :: b)))))
      = v ++ [' '] := List.take_left' rfl
  have hd2 : List.drop ((a.dropWhile isspace ++ blankAfter (a.dropWhile isspace)).length + 2)
      (a.dropWhile isspace ++ blankAfter (a.dropWhile isspace) ++ ("TO".toList ++ (' ' :: b)))
      = ' ' :: b := by
    rw [drop_length_add_append]; rfl
  have ht2 : List.take (a.dropWhile isspace ++ blankAfter (a.dropWhile isspace)).length
      (a.dropWhile isspace ++ blankAfter (a.dropWhile isspace) ++ ("TO".toList ++ (' ' :: b)))
      = a.dropWhile isspace ++ blankAfter (a.dropWhile isspace) := List.take_left' rfl
  rw [e0]
  simp only [interpret_for, hchr, hd1, ht1, hrest, hto, hd2, ht2,
    trim_append_blankAfter_dropWhile, trim_append_space v ' ' hsp,
    trim_cons_space ' ' b hsp, trim_of_trimmed b hb, hbstep]

/-- A line `FOR args` with argument text is handed to the `FOR` branch. -/
theorem interpret_basic_for (args : CStr) (hne : args ≠ []) :
    interpret_basic ("FOR ".toList ++ args) = some (interpret_for args) := by
  have hk := strtok_spaces_word_rest 0 "FOR".toList args (by simp) (by simp)
  have hline : "FOR ".toList ++ args = List.replicate 0 ' ' ++ "FOR".toList ++ ' ' :: args := by simp
  rw [← hline] at hk
  have hpre : strcasecmp_prefix ("FOR ".toList ++ args) "FOR".toList = true := by
    simp +decide [ strcasecmp_prefix]
  have hargs : (strtok args []).map Prod.fst = some args := by
    rw [strtok_nil_delim]; simp [hne]
  rw [interpret_basic_eq_step]
  simp only [interpret_step, hk, hpre, hargs]
  simp +decide

/-- A line `FUNCTION args` with argument text is handed to the `FUNCTION` branch. -/
theorem interpret_basic_function (args : CStr) (hne : args ≠ []) :
    interpret_basic ("FUNCTION ".toList ++ args) = interpret_function args := by
  have hk := strtok_spaces_word_rest 0 "FUNCTION".toList args (by simp) (by simp)
  have hline : "FUNCTION ".toList ++ args
      = List.replicate 0 ' ' ++ "FUNCTION".toList ++ ' ' :: args := by simp
  rw [← hline] at hk
  have hpre : strcasecmp_prefix ("FUNCTION ".toList ++ args) "FUNCTION".toList = true := by
    simp +decide [ strcasecmp_prefix]
  have hargs : (strtok args []).map Prod.fst = some args := by
    rw [strtok_nil_delim]; simp [hne]
  rw [interpret_basic_eq_step]
  simp only [interpret_step, hk, hpre, hargs]
  simp +decide

/-- The loop header that `generate_for` builds for a step text of value `n`. -/
theorem generate_for_eq (v a b s : CStr) (n : Int) (hval : atoi s = some n)
    (hinc : (forIncrement v s n).length < 20) :
    generate_for v a b s = Outcome.fragment (List.take 1023 (forHeader v a b s n)) := by
  have h3 : sprintf 20 (forIncrement v s n) = some (forIncrement v s n) := by
    simp [sprintf, hinc]
  by_cases hn : n ≥ 0
  · by_cases hn1 : n = 1
    · simp only [forIncrement, hn1, if_true] at h3
      simp at h3
      simp [generate_for, hval, hn1, h3, snprintf, forHeader, forIncrement, forComparison]
    · have hm : n ≠ -1 := by omega
      simp only [forIncrement, hn1, hm, if_false] at h3
      simp at h3
      simp [generate_for, hval, hn, hn1, hm, h3, snprintf, forHeader, forIncrement, forComparison]
  · by_cases hn1 : n = -1
    · simp only [forIncrement, hn1, if_true] at h3
      simp +decide at h3
      simp +decide [generate_for, hval, hn1, h3, snprintf, forHeader, forIncrement, forComparison]
    · have hm : n ≠ 1 := by omega
      simp only [forIncrement, hn1, hm, if_false] at h3
      simp at h3
      simp [generate_for, hval, hn, hn1, hm, h3, snprintf, forHeader, forIncrement, forComparison]

/-! ## Every fragment fits the static buffer `output` -/

theorem fitsOutput_snprintf (text : CStr) :
    fitsOutput (some (Outcome.fragment (snprintf 1024 text))) := by
  intro t h
  cases h
  exact length_snprintf_le 1024 text

theorem fitsOutput_none : fitsOutput none := by
  intro t h; cases h

theorem fitsOutput_undefined : fitsOutput (some Outcome.undefined) := by
  intro t h; cases h

theorem fitsOutput_generate_for (v a b s : CStr) : fitsOutput (some (generate_for v a b s)) := by
  intro t h
  simp only [generate_for] at h
  split at h
  · cases h
  · split at h
    · cases h
    · simp only [Option.some.injEq, Outcome.fragment.injEq] at h
      rw [← h]
      exact length_snprintf_le _ _

theorem fitsOutput_interpret_for (args : CStr) : fitsOutput (some (interpret_for args)) := by
  simp only [interpret_for]
  repeat' (first | exact fitsOutput_snprintf _ | exact fitsOutput_generate_for _ _ _ _ | split)

theorem fitsOutput_interpret_function (args : CStr) : fitsOutput (interpret_function args) := by
  simp only [interpret_function]
  repeat' (first | exact fitsOutput_snprintf _ | exact fitsOutput_none | exact fitsOutput_undefined | split)

theorem fitsOutput_interpret_if (recur : CStr → Option Outcome) (args : Option CStr) :
    fitsOutput (interpret_if recur args) := by
  simp only [interpret_if]
  repeat' (first | exact fitsOutput_snprintf _ | exact fitsOutput_none | exact fitsOutput_undefined | split)

theorem fitsOutput_ite (c : Prop) [Decidable c] (a b : Option Outcome)
    (ha : fitsOutput a) (hb : fitsOutput b) : fitsOutput (if c then a else b) := by
  split <;> assumption

theorem fitsOutput_interpret_step (recur : CStr → Option Outcome) (x : CStr) :
    fitsOutput (interpret_step recur x) := by
  simp only [interpret_step]
  cases hk : strtok x " ".toList with
  | none => exact fitsOutput_snprintf _
  | some p =>
    obtain ⟨cmd, saved⟩ := p
    dsimp only
    generalize Option.map Prod.fst (strtok saved []) = args
    cases args <;> dsimp only <;>
    repeat' (first
      | exact fitsOutput_snprintf _ | exact fitsOutput_none | exact fitsOutput_undefined
      | exact fitsOutput_interpret_for _ | exact fitsOutput_interpret_function _
      | exact fitsOutput_interpret_if _ _ | apply fitsOutput_ite)

/-- Whatever the line, a fragment returned by `interpret_basic` has at most
1023 characters: it lives in the 1024-byte buffer `output`. -/
theorem interpret_basic_length_le (line t : CStr)
    (h : interpret_basic line = some (Outcome.fragment t)) : t.length ≤ 1023 :=
  fitsOutput_interpret_step _ line t h

/-! ## Identifiers and literals -/

theorem isIdentChar_of_isspace (c : Char) (h : isspace c = true) : isIdentChar c = false := by
  simp only [isspace, Bool.or_eq_true, beq_iff_eq] at h
  rcases h with ((((h | h) | h) | h) | h) | h <;> subst h <;> decide

theorem isspace_of_isIdentChar (c : Char) (h : isIdentChar c = true) : isspace c = false := by
  cases hs : isspace c with
  | false => rfl
  | true => rw [isIdentChar_of_isspace c hs] at h; cases h

theorem not_mem_of_all_isIdentChar (s : CStr) (d : Char) (hs : s.all isIdentChar = true)
    (hd : isIdentChar d = false) : d ∉ s := by
  intro hm
  rw [List.all_eq_true] at hs
  have := hs d hm
  rw [hd] at this
  cases this

theorem trimmed_of_no_space (s : CStr) (h : ∀ c ∈ s, isspace c = false) : trimmed s = true := by
  simp only [trimmed, Bool.and_eq_true]
  constructor
  · cases s with
    | nil => rfl
    | cons x xs => simpa using h x (by simp)
  · cases hg : s.getLast? with
    | none => rfl
    | some z =>
      have := List.mem_of_getLast?_eq_some hg
      simpa using h z this

theorem isIdent_all (s : CStr) (h : isIdent s = true) : s.all isIdentChar = true := by
  simp only [isIdent, Bool.and_eq_true] at h
  exact h.2

theorem isIdent_ne_nil (s : CStr) (h : isIdent s = true) : s ≠ [] := by
  intro e; subst e; simp [isIdent] at h

theorem isIdent_trimmed (s : CStr) (h : isIdent s = true) : trimmed s = true :=
  trimmed_of_no_space s (fun c hc =>
    isspace_of_isIdentChar c ((List.all_eq_true.mp (isIdent_all s h)) c hc))

theorem isIdent_not_mem (s : CStr) (d : Char) (h : isIdent s = true)
    (hd : isIdentChar d = false) : d ∉ s :=
  not_mem_of_all_isIdentChar s d (isIdent_all s h) hd

theorem isspace_of_isDigit (c : Char) (h : c.isDigit = true) : isspace c = false := by
  cases hs : isspace c with
  | false => rfl
  | true =>
    simp only [isspace, Bool.or_eq_true, beq_iff_eq] at hs
    rcases hs with ((((hs | hs) | hs) | hs) | hs) | hs <;> subst hs <;> simp at h

theorem isIntLiteral_no_space (s : CStr) (h : isIntLiteral s = true) :
    ∀ c ∈ s, isspace c = false := by
  have key : ∀ ds : CStr, ds.all Char.isDigit = true → ∀ c ∈ ds, isspace c = false := by
    intro ds hds c hc
    exact isspace_of_isDigit c (List.all_eq_true.mp hds c hc)
  unfold isIntLiteral at h
  split at h
  · rename_i ds
    simp only [Bool.and_eq_true] at h
    intro c hc
    rcases List.mem_cons.mp hc with e | hm
    · subst e; decide
    · exact key ds h.2 c hm
  · simp only [Bool.and_eq_true] at h
    exact key s h.2

theorem isIntLiteral_ne_nil (s : CStr) (h : isIntLiteral s = true) : s ≠ [] := by
  intro e; subst e; simp [isIntLiteral] at h

theorem isIntLiteral_trimmed (s : CStr) (h : isIntLiteral s = true) : trimmed s = true :=
  trimmed_of_no_space s (isIntLiteral_no_space s h)

/-! ## The `FUNCTION` branch -/

theorem strtok_word_rest (d : Char) (w rest : CStr) (hw : w ≠ []) (hns : d ∉ w) :
    strtok (w ++ d :: rest) [d] = some (w, rest) := by
  have hp : ∀ c ∈ w, (!([d].contains c)) = true := fun c hc => by
    have : c ≠ d := fun e => hns (e ▸ hc)
    simp [this]
  have h1 : (w ++ d :: rest).dropWhile (fun c => [d].contains c) = w ++ d :: rest := by
    cases w with
    | nil => exact absurd rfl hw
    | cons y ys =>
      have : y ≠ d := fun e => hns (by simp [e])
      simp [List.dropWhile, this]
  have hne : (w ++ d :: rest).isEmpty = false := by cases w <;> simp
  have h2 : (w ++ d :: rest).takeWhile (fun c => !([d].contains c)) = w :=
    takeWhile_append_stop _ w rest d hp (by simp)
  have h3 : (w ++ d :: rest).dropWhile (fun c => !([d].contains c)) = d :: rest :=
    dropWhile_append_stop _ w rest d hp (by simp)
  unfold strtok
  simp only [h1, hne, h2, h3]
  simp

theorem strtok_word_end (d : Char) (w : CStr) (hw : w ≠ []) (hns : d ∉ w) :
    strtok w [d] = some (w, []) := by
  have hp : ∀ c ∈ w, (!([d].contains c)) = true := fun c hc => by
    have : c ≠ d := fun e => hns (e ▸ hc)
    simp [this]
  have h1 : w.dropWhile (fun c => [d].contains c) = w := by
    cases w with
    | nil => exact absurd rfl hw
    | cons y ys =>
      have : y ≠ d := fun e => hns (by simp [e])
      simp [List.dropWhile, this]
  have hne : w.isEmpty = false := by cases w <;> simp at hw ⊢
  have h2 : w.takeWhile (fun c => !([d].contains c)) = w := List.takeWhile_eq_self_iff.mpr hp
  have h3 : w.dropWhile (fun c => !([d].contains c)) = [] := List.dropWhile_eq_nil_iff.mpr hp
  unfold strtok
  simp only [h1, hne, h2, h3]
  simp

theorem strtok_joinWith (q : CStr) (qs : List CStr) (hq : q ≠ []) (hc : ',' ∉ q) :
    strtok (joinWith ",".toList (q :: qs)) ",".toList = some (q, joinWith ",".toList qs) := by
  cases qs with
  | nil => exact strtok_word_end ',' q hq hc
  | cons q2 qs =>
    have : joinWith ",".toList (q :: q2 :: qs) = q ++ ',' :: joinWith ",".toList (q2 :: qs) := by
      simp [joinWith]
    rw [this]
    exact strtok_word_rest ',' q _ hq hc

/-- The declarations the parameter loop appends for the tokens `qs`. -/
theorem param_loop_joinWith (qs : List CStr) (q : CStr) (fuel : Nat) (first : Bool) (acc : CStr)
    (hq : ∀ x ∈ q :: qs, x ≠ [] ∧ ',' ∉ x) (hfuel : qs.length < fuel)
    (hfit : (acc ++ (if first then [] else ", ".toList)
      ++ joinWith ", ".toList ((q :: qs).map (fun x => "int ".toList ++ trim x))).length < 256) :
    param_loop fuel (some (q, joinWith ",".toList qs)) first acc
      = some (some (acc ++ (if first then [] else ", ".toList)
          ++ joinWith ", ".toList ((q :: qs).map (fun x => "int ".toList ++ trim x)))) := by
  induction qs generalizing q fuel first acc with
  | nil =>
    cases fuel with
    | zero => simp at hfuel
    | succ f =>
      simp only [List.map_cons, List.map_nil, joinWith, List.length_append] at hfit
      have e : strtok (joinWith ",".toList []) ",".toList = none := by decide
      cases first with
      | true =>
        simp only [if_true, List.length_nil, Nat.add_zero] at hfit
        have s1 : strcat 256 acc "int ".toList = some (acc ++ "int ".toList) := by
          simp [strcat]; simp at hfit; omega
        have s2 : strcat 256 (acc ++ "int ".toList) (trim q)
            = some (acc ++ "int ".toList ++ trim q) := by
          simp [strcat]; simp at hfit; omega
        simp only [param_loop, if_true, s1, s2, e]
        simp [joinWith]
      | false =>
        simp only [Bool.false_eq_true, if_false] at hfit
        have s0 : strcat 256 acc ", ".toList = some (acc ++ ", ".toList) := by
          simp [strcat]; simp at hfit; omega
        have s1 : strcat 256 (acc ++ ", ".toList) "int ".toList
            = some (acc ++ ", ".toList ++ "int ".toList) := by
          simp [strcat]; simp at hfit; omega
        have s2 : strcat 256 (acc ++ ", ".toList ++ "int ".toList) (trim q)
            = some (acc ++ ", ".toList ++ "int ".toList ++ trim q) := by
          simp [strcat]; simp at hfit; omega
        simp only [param_loop, Bool.false_eq_true, if_false, s0, s1, s2, e]
        simp [joinWith]
  | cons q2 qs ih =>
    cases fuel with
    | zero => simp at hfuel
    | succ f =>
      have hq2 := hq q2 (by simp)
      have e := strtok_joinWith q2 qs hq2.1 hq2.2
      have hj : joinWith ", ".toList ((q :: q2 :: qs).map (fun x => "int ".toList ++ trim x))
          = "int ".toList ++ trim q ++ ", ".toList
            ++ joinWith ", ".toList ((q2 :: qs).map (fun x => "int ".toList ++ trim x)) := by
        simp [joinWith]
      rw [hj] at hfit ⊢
      have hfuel2 : qs.length < f := by simp at hfuel; omega
      have hqs : ∀ x ∈ q2 :: qs, x ≠ [] ∧ ',' ∉ x := fun x hx => hq x (by simp [hx])
      cases first with
      | true =>
        simp only [if_true, List.length_append, List.length_nil, Nat.add_zero] at hfit
        have s1 : strcat 256 acc "int ".toList = some (acc ++ "int ".toList) := by
          simp [strcat]; simp at hfit; omega
        have s2 : strcat 256 (acc ++ "int ".toList) (trim q)
            = some (acc ++ "int ".toList ++ trim q) := by
          simp [strcat]; simp at hfit; omega
        simp only [param_loop, if_true, s1, s2, e]
        rw [ih q2 f false _ hqs hfuel2 (by simp at hfit ⊢; omega)]
        simp
      | false =>
        simp only [Bool.false_eq_true, if_false, List.length_append] at hfit
        have s0 : strcat 256 acc ", ".toList = some (acc ++ ", ".toList) := by
          simp [strcat]; simp at hfit; omega
        have s1 : strcat 256 (acc ++ ", ".toList) "int ".toList
            = some (acc ++ ", ".toList ++ "int ".toList) := by
          simp [strcat]; simp at hfit; omega
        have s2 : strcat 256 (acc ++ ", ".toList ++ "int ".toList) (trim q)
            = some (acc ++ ", ".toList ++ "int ".toList ++ trim q) := by
          simp [strcat]; simp at hfit; omega
        simp only [param_loop, Bool.false_eq_true, if_false, s0, s1, s2, e]
        rw [ih q2 f false _ hqs hfuel2 (by simp at hfit ⊢; omega)]
        simp

theorem trim_replicate_left (k : Nat) (s : CStr) : trim (List.replicate k ' ' ++ s) = trim s := by
  induction k with
  | zero => simp
  | succ k ih =>
    rw [List.replicate_succ, List.cons_append, trim_cons_space _ _ (by decide), ih]

theorem trim_replicate_right (k : Nat) (s : CStr) : trim (s ++ List.replicate k ' ') = trim s := by
  induction k generalizing s with
  | zero => simp
  | succ k ih =>
    have e : s ++ List.replicate (k + 1) ' ' = (s ++ [' ']) ++ List.replicate k ' ' := by
      simp [List.replicate_succ]
    rw [e, ih, trim_append_space _ _ (by decide)]

theorem trim_padded (p : Nat × CStr × Nat) (h : isIdent p.2.1 = true) : trim (padded p) = p.2.1 := by
  unfold padded
  rw [trim_replicate_right, trim_replicate_left, trim_of_trimmed _ (isIdent_trimmed _ h)]

theorem padded_ne_nil (p : Nat × CStr × Nat) (h : isIdent p.2.1 = true) : padded p ≠ [] := by
  have := isIdent_ne_nil _ h
  simp [padded, this]

theorem not_mem_padded (p : Nat × CStr × Nat) (d : Char) (h : isIdent p.2.1 = true)
    (hd : isIdentChar d = false) (hsp : d ≠ ' ') : d ∉ padded p := by
  have h1 := isIdent_not_mem _ d h hd
  intro hm
  simp only [padded, List.mem_append] at hm
  rcases hm with (hm | hm) | hm
  · exact hsp (List.eq_of_mem_replicate hm)
  · exact h1 hm
  · exact hsp (List.eq_of_mem_replicate hm)

theorem mem_joinWith (sep : CStr) (xs : List CStr) (c : Char) (h : c ∈ joinWith sep xs) :
    c ∈ sep ∨ ∃ x ∈ xs, c ∈ x := by
  induction xs with
  | nil => simp [joinWith] at h
  | cons x xs ih =>
    cases xs with
    | nil => exact Or.inr ⟨x, by simp, by simpa [joinWith] using h⟩
    | cons y ys =>
      simp only [joinWith, List.mem_append] at h
      rcases h with (h | h) | h
      · exact Or.inr ⟨x, by simp, h⟩
      · exact Or.inl h
      · rcases ih h with h2 | ⟨z, hz, hc⟩
        · exact Or.inl h2
        · exact Or.inr ⟨z, by simp [hz], hc⟩

theorem length_le_length_joinWith (sep : CStr) (xs : List CStr) (h : ∀ x ∈ xs, x ≠ []) :
    xs.length ≤ (joinWith sep xs).length := by
  induction xs with
  | nil => simp
  | cons x xs ih =>
    have hx : 0 < x.length := List.length_pos.mpr (h x (by simp))
    cases xs with
    | nil => simp [joinWith]; omega
    | cons y ys =>
      have := ih (fun z hz => h z (by simp [hz]))
      simp only [joinWith, List.length_append, List.length_cons] at this ⊢
      omega

/-- The `FUNCTION` branch on a name followed by a parenthesised parameter list. -/
theorem interpret_function_params (n : CStr) (ps : List (Nat × CStr × Nat))
    (hn : isIdent n = true) (hps : ∀ p ∈ ps, isIdent p.2.1 = true)
    (htrim : trimmed (joinWith ",".toList (ps.map padded)) = true)
    (hfit : (joinWith ", ".toList (ps.map (fun p => "int ".toList ++ p.2.1))).length < 256) :
    interpret_function (n ++ "(".toList ++ joinWith ",".toList (ps.map padded) ++ ")".toList)
      = some (Outcome.fragment (List.take 1023
          ("int ".toList ++ n ++ "(".toList
            ++ joinWith ", ".toList (ps.map (fun p => "int ".toList ++ p.2.1))
            ++ ") \x7b".toList))) := by
  have e0 : n ++ "(".toList ++ joinWith ",".toList (ps.map padded) ++ ")".toList
      = n ++ '(' :: (joinWith ",".toList (ps.map padded) ++ [')']) := by simp
  have hopen := strchr_append_cons n (joinWith ",".toList (ps.map padded) ++ [')']) '('
    (isIdent_not_mem n '(' hn (by decide))
  have hnoclose : ')' ∉ joinWith ",".toList (ps.map padded) := by
    intro hm
    rcases mem_joinWith _ _ _ hm with h | ⟨x, hx, hc⟩
    · simp at h
    · rw [List.mem_map] at hx
      obtain ⟨p, hp, rfl⟩ := hx
      exact not_mem_padded p ')' (hps p hp) (by decide) (by decide) hc
  have hclose := strchr_append_cons (joinWith ",".toList (ps.map padded)) [] ')' hnoclose
  have hd : List.drop (n.length + 1) (n ++ '(' :: (joinWith ",".toList (ps.map padded) ++ [')']))
      = joinWith ",".toList (ps.map padded) ++ [')'] := drop_length_succ_append_cons _ _ _
  have ht : List.take n.length (n ++ '(' :: (joinWith ",".toList (ps.map padded) ++ [')'])) = n :=
    List.take_left' rfl
  have ht2 : List.take (joinWith ",".toList (ps.map padded)).length
      (joinWith ",".toList (ps.map padded) ++ [')']) = joinWith ",".toList (ps.map padded) :=
    List.take_left' rfl
  have hmap : (ps.map padded).map (fun x => "int ".toList ++ trim x)
      = ps.map (fun p => "int ".toList ++ p.2.1) := by
    rw [List.map_map]
    apply List.map_congr_left
    intro p hp
    simp only [Function.comp, trim_padded p (hps p hp)]
  rw [e0]
  simp only [interpret_function, hopen, hd, ht, hclose, ht2, trim_of_trimmed _ htrim,
    trim_of_trimmed _ (isIdent_trimmed n hn)]
  cases hps' : ps with
  | nil => simp [joinWith, snprintf]
  | cons p ps' =>
    subst hps'
    have hall : ∀ x ∈ (p :: ps').map padded, x ≠ [] ∧ ',' ∉ x := by
      intro x hx
      rw [List.mem_map] at hx
      obtain ⟨r, hr, rfl⟩ := hx
      exact ⟨padded_ne_nil r (hps r hr), not_mem_padded r ',' (hps r hr) (by decide) (by decide)⟩
    have hlen := length_le_length_joinWith ",".toList ((p :: ps').map padded)
      (fun x hx => (hall x hx).1)
    rw [List.length_map, List.length_cons] at hlen
    have hpos : (joinWith ",".toList ((p :: ps').map padded)).length > 0 := by omega
    have htok := strtok_joinWith (padded p) (ps'.map padded) (hall _ (by simp)).1
      (hall _ (by simp)).2
    have hmap2 : (padded p :: ps'.map padded).map (fun x => "int ".toList ++ trim x)
        = (p :: ps').map (fun p => "int ".toList ++ p.2.1) := hmap
    have hloop := param_loop_joinWith (ps'.map padded) (padded p)
      ((joinWith ",".toList ((p :: ps').map padded)).length + 1) true []
      hall (by rw [List.length_map]; omega)
      (by
        simp only [if_true, List.nil_append, List.append_nil]
        rw [hmap2]; exact hfit)
    rw [hmap2] at hloop
    have hm : (p :: ps').map padded = padded p :: ps'.map padded := rfl
    rw [hm] at hpos hloop ⊢
    simp only [hpos, if_true, htok, hloop, snprintf]
    simp

/-! ## `interpret_basic` always returns -/

theorem param_loop_ne_none (fuel : Nat) (tok : Option (CStr × CStr)) (first : Bool)
    (acc : CStr) (h : ∀ p saved, tok = some (p, saved) → saved.length < fuel) :
    param_loop fuel tok first acc ≠ none := by
  induction fuel generalizing tok first acc with
  | zero =>
    cases tok with
    | none => simp [param_loop]
    | some ps => exact absurd (h ps.1 ps.2 rfl) (Nat.not_lt_zero _)
  | succ f ih =>
    cases tok with
    | none => simp [param_loop]
    | some ps =>
      obtain ⟨p, saved⟩ := ps
      have hs := h p saved rfl
      have hnext : ∀ l3, param_loop f (strtok saved ",".toList) false l3 ≠ none := fun l3 =>
        ih _ false l3 (fun q s2 hq => by
          have := strtok_saved_length saved _ q s2 hq
          omega)
      simp only [param_loop]
      split
      · simp
      · split
        · simp
        · split
          · simp
          · exact hnext _

theorem interpret_function_ne_none (args : CStr) : interpret_function args ≠ none := by
  cases h1 : strchr args '(' with
  | none => simp [interpret_function, h1]
  | some i =>
    simp only [interpret_function, h1]
    generalize trim (match strchr (List.drop (i + 1) args) ')' with
      | some j => List.take j (List.drop (i + 1) args)
      | none => List.drop (i + 1) args) = params
    split
    · have := param_loop_ne_none (params.length + 1) (strtok params ",".toList) true []
        (fun q s2 hq => by
          have := strtok_saved_length _ _ q s2 hq
          omega)
      cases hp : param_loop (params.length + 1) (strtok params ",".toList) true [] with
      | none => exact absurd hp this
      | some r => cases r <;> simp
    · simp

theorem interpret_if_ne_none (recur : CStr → Option Outcome) (args : Option CStr)
    (h : ∀ a y, args = some a → y.length ≤ a.length → recur y ≠ none) :
    interpret_if recur args ≠ none := by
  cases args with
  | none => simp [interpret_if]
  | some a =>
    simp only [interpret_if]
    cases hs : strcasestr a "THEN".toList with
    | none => simp
    | some i =>
      have hlen : ((a.drop (i + 4)).dropWhile isspace).length ≤ a.length := by
        have := length_dropWhile_le isspace (a.drop (i + 4))
        rw [List.length_drop] at this
        omega
      have := h a _ rfl hlen
      simp only
      split
      · rename_i hnone
        exact absurd hnone this
      · simp
      · simp
      · simp

theorem ne_none_ite (c : Prop) [Decidable c] (a b : Option Outcome)
    (ha : a ≠ none) (hb : b ≠ none) : (if c then a else b) ≠ none := by
  split <;> assumption

theorem interpret_step_ne_none (recur : CStr → Option Outcome) (x : CStr)
    (h : ∀ y, y.length < x.length → recur y ≠ none) : interpret_step recur x ≠ none := by
  simp only [interpret_step]
  cases hk : strtok x " ".toList with
  | none => simp
  | some p =>
    obtain ⟨cmd, saved⟩ := p
    have hsaved := strtok_saved_length x _ cmd saved hk
    have hif : interpret_if recur ((strtok saved []).map Prod.fst) ≠ none := by
      apply interpret_if_ne_none
      intro a y ha hy
      rw [strtok_nil_delim] at ha
      split at ha
      · cases ha
      · cases ha
        exact h y (by omega)
    dsimp only
    revert hif
    generalize Option.map Prod.fst (strtok saved []) = args
    intro hif
    cases args <;> dsimp only <;>
    repeat' (first
      | exact hif
      | exact interpret_function_ne_none _
      | exact Option.some_ne_none _
      | apply ne_none_ite)

theorem interpret_basic_fuel_ne_none (n : Nat) (x : CStr) (hn : x.length < n) :
    interpret_basic_fuel n x ≠ none := by
  induction n generalizing x with
  | zero => omega
  | succ n ih =>
    simp only [interpret_basic_fuel]
    exact interpret_step_ne_none _ x (fun y hy => ih y (by omega))

/-- The depth bound of `interpret_basic` is never reached: every line has an
outcome. -/
theorem interpret_basic_total (input : CStr) : ∃ o, interpret_basic input = some o := by
  have := interpret_basic_fuel_ne_none (input.length + 1) input (Nat.lt_succ_self _)
  cases h : interpret_basic input with
  | none => exact absurd h this
  | some o => exact ⟨o, rfl⟩

/-! ## The claims -/

/-- C1 (amended): for every text `s` without `=`, translating the line `PRINT "s"`
returns the first 1023 characters of `printf("%s\n", "s");`, hence exactly
that fragment when `s` has at most 1004 characters. -/
theorem print_string_literal (s : CStr) (hs : '=' ∉ s) :
    interpret_basic ("PRINT \"".toList ++ s ++ "\"".toList)
        = some (Outcome.fragment
            (List.take 1023 ("printf(\"%s\\n\", \"".toList ++ s ++ "\");".toList)))
    ∧ (s.length ≤ 1004 →
        interpret_basic ("PRINT \"".toList ++ s ++ "\"".toList)
          = some (Outcome.fragment ("printf(\"%s\\n\", \"".toList ++ s ++ "\");".toList))) := by
  have h := print_quoted_gen s hs
  refine ⟨h, fun hlen => ?_⟩
  rw [h, snprintf_of_length_le]
  simp
  omega

/-- Witness of C1 at `PRINT "hi"`. -/
theorem print_string_literal_witness :
    '=' ∉ "hi".toList ∧ "hi".toList.length ≤ 1004
    ∧ interpret_basic ("PRINT \"".toList ++ "hi".toList ++ "\"".toList)
        = some (Outcome.fragment ("printf(\"%s\\n\", \"".toList ++ "hi".toList ++ "\");".toList)) :=
  ⟨by decide, by decide, (print_string_literal "hi".toList (by decide)).2 (by decide)⟩

/-- C1 fails as stated: `PRINT "a=b"` is taken for an assignment and comes back as
`PRINT "a=b";`, and a string of 1005 characters does not come back whole. -/
theorem print_string_literal_counterexample :
    interpret_basic "PRINT \"a=b\"".toList = some (Outcome.fragment "PRINT \"a=b\";".toList)
    ∧ interpret_basic "PRINT \"a=b\"".toList
        ≠ some (Outcome.fragment "printf(\"%s\\n\", \"a=b\");".toList)
    ∧ interpret_basic ("PRINT \"".toList ++ List.replicate 1005 'x' ++ "\"".toList)
        ≠ some (Outcome.fragment
            ("printf(\"%s\\n\", \"".toList ++ List.replicate 1005 'x' ++ "\");".toList)) := by
  refine ⟨by decide, by decide, fun h => ?_⟩
  have := interpret_basic_length_le _ _ h
  rw [List.length_append, List.length_append, List.length_replicate] at this
  exact absurd this (by decide)

/-- C2 (amended): for every line that contains `=` and does not begin, letter case
ignored, with LET, FUNCTION or FOR followed by white space or the end of the
line, `interpret_basic` returns the first 1023 characters of the line followed
by `;`, hence exactly the line followed by `;` when the line has at most 1022
characters. -/
theorem bare_assignment (line : CStr) (heq : '=' ∈ line)
    (hLET : beginsWithWord line "LET".toList = false)
    (hFUNCTION : beginsWithWord line "FUNCTION".toList = false)
    (hFOR : beginsWithWord line "FOR".toList = false) :
    interpret_basic line = some (Outcome.fragment (List.take 1023 (line ++ ";".toList)))
    ∧ (line.length ≤ 1022 →
        interpret_basic line = some (Outcome.fragment (line ++ ";".toList))) := by
  have h := bare_assignment_gen line heq hLET hFUNCTION hFOR
  refine ⟨h, fun hlen => ?_⟩
  rw [h, snprintf_of_length_le]
  simp
  omega

/-- Witness of C2 at `X = 5`. -/
theorem bare_assignment_witness :
    '=' ∈ "X = 5".toList ∧ beginsWithWord "X = 5".toList "LET".toList = false
    ∧ beginsWithWord "X = 5".toList "FUNCTION".toList = false
    ∧ beginsWithWord "X = 5".toList "FOR".toList = false
    ∧ interpret_basic "X = 5".toList = some (Outcome.fragment ("X = 5".toList ++ ";".toList)) :=
  ⟨by decide, by decide, by decide, by decide,
    (bare_assignment "X = 5".toList (by decide) (by decide) (by decide) (by decide)).2
      (by decide)⟩

/-- C2 fails as stated: for the line of 1022 letters `X` followed by `=` the
fragment is not the line followed by `;` (the `;` does not fit the buffer). -/
theorem bare_assignment_counterexample :
    '=' ∈ List.replicate 1022 'X' ++ ['=']
    ∧ beginsWithWord (List.replicate 1022 'X' ++ ['=']) "LET".toList = false
    ∧ beginsWithWord (List.replicate 1022 'X' ++ ['=']) "FUNCTION".toList = false
    ∧ beginsWithWord (List.replicate 1022 'X' ++ ['=']) "FOR".toList = false
    ∧ interpret_basic (List.replicate 1022 'X' ++ ['='])
        ≠ some (Outcome.fragment ((List.replicate 1022 'X' ++ ['=']) ++ ";".toList)) := by
  refine ⟨List.mem_append.mpr (Or.inr (List.mem_singleton.mpr rfl)), by decide, by decide,
    by decide, fun h => ?_⟩
  have := interpret_basic_length_le _ _ h
  rw [List.length_append, List.length_append, List.length_replicate] at this
  exact absurd this (by decide)

/-- C3 (amended): for every condition text `c` without an occurrence of THEN
(letter case ignored) and every clause text `s`, neither containing `=`: if
translating `s` without its leading white space as a line of its own gives the
fragment `t`, then translating `IF c THEN s` gives the first 1023 characters of
`if (C) {\n    B;\n  }`, where `C` is `c` trimmed and `B` is `t` trimmed with one
trailing `;` removed; it gives exactly that text when it has at most 1023
characters. -/
theorem if_then_translation (c s t : CStr) (hc : strcasestr c "THEN".toList = none)
    (hceq : '=' ∉ c) (hseq : '=' ∉ s)
    (ht : interpret_basic (s.dropWhile isspace) = some (Outcome.fragment t)) :
    interpret_basic ("IF ".toList ++ c ++ " THEN ".toList ++ s)
        = some (Outcome.fragment (List.take 1023
            ("if (".toList ++ trim c ++ ") \x7b\n    ".toList ++ dropSemicolon (trim t)
              ++ ";\n  \x7d".toList)))
    ∧ (("if (".toList ++ trim c ++ ") \x7b\n    ".toList ++ dropSemicolon (trim t)
          ++ ";\n  \x7d".toList).length ≤ 1023 →
        interpret_basic ("IF ".toList ++ c ++ " THEN ".toList ++ s)
          = some (Outcome.fragment
              ("if (".toList ++ trim c ++ ") \x7b\n    ".toList ++ dropSemicolon (trim t)
                ++ ";\n  \x7d".toList))) := by
  have h := if_then_gen c s t hc hceq hseq ht
  refine ⟨h, fun hlen => ?_⟩
  rw [h, snprintf_of_length_le hlen]

/-- Witness of C3: `IF X > 0 THEN RETURN X` gives `if (X > 0) {\n    return X;\n  }`. -/
theorem if_then_translation_witness :
    strcasestr "X > 0".toList "THEN".toList = none
    ∧ '=' ∉ "X > 0".toList ∧ '=' ∉ "RETURN X".toList
    ∧ interpret_basic ("RETURN X".toList.dropWhile isspace)
        = some (Outcome.fragment "return X;".toList)
    ∧ interpret_basic ("IF ".toList ++ "X > 0".toList ++ " THEN ".toList ++ "RETURN X".toList)
        = some (Outcome.fragment "if (X > 0) \x7b\n    return X;\n  \x7d".toList) :=
  ⟨by decide, by decide, by decide, by decide,
    (if_then_translation "X > 0".toList "RETURN X".toList "return X;".toList
      (by decide) (by decide) (by decide) (by decide)).2 (by decide)⟩

/-- C3 fails as stated: with a condition of 1100 letters `X` the fragment is not the
whole `if` block, which does not fit the buffer. -/
theorem if_then_translation_counterexample :
    strcasestr (List.replicate 1100 'X') "THEN".toList = none
    ∧ interpret_basic "RETURN X".toList = some (Outcome.fragment "return X;".toList)
    ∧ interpret_basic ("IF ".toList ++ List.replicate 1100 'X' ++ " THEN ".toList
          ++ "RETURN X".toList)
        ≠ some (Outcome.fragment ("if (".toList ++ List.replicate 1100 'X'
            ++ ") \x7b\n    ".toList ++ "return X".toList ++ ";\n  \x7d".toList)) := by
  refine ⟨strcasestr_replicate_none 1100 'X' 'T' _ (by decide), by decide, fun h => ?_⟩
  have := interpret_basic_length_le _ _ h
  simp only [List.length_append, List.length_replicate] at this
  exact absurd this (by decide)

/-- C4 (amended): for every line whose command token is IF (letter case ignored) and
whose argument text contains neither THEN (letter case ignored) nor `=`,
`interpret_basic` returns a comment that begins with `// Syntax error: IF`:
`IF without condition` when there is no argument text, `IF without THEN`
otherwise.  The line is `k` blanks, the token `kw`, then nothing or one blank
and `args`. -/
theorem if_without_then (k : Nat) (kw args : CStr) (hkw : strcasecmp kw "IF".toList = true)
    (hthen : strcasestr args "THEN".toList = none) (heq : '=' ∉ args) :
    interpret_basic (List.replicate k ' ' ++ kw)
        = some (Outcome.fragment "// Syntax error: IF without condition".toList)
    ∧ interpret_basic (List.replicate k ' ' ++ kw ++ ' ' :: args)
        = some (Outcome.fragment
            (if args.isEmpty then "// Syntax error: IF without condition".toList
             else "// Syntax error: IF without THEN".toList)) :=
  if_no_then_gen k kw args hkw hthen heq

/-- Witness of C4 at the lines `if` and `if X > 0`. -/
theorem if_without_then_witness :
    strcasecmp "if".toList "IF".toList = true
    ∧ strcasestr "X > 0".toList "THEN".toList = none ∧ '=' ∉ "X > 0".toList
    ∧ interpret_basic (List.replicate 0 ' ' ++ "if".toList)
        = some (Outcome.fragment "// Syntax error: IF without condition".toList)
    ∧ interpret_basic (List.replicate 0 ' ' ++ "if".toList ++ ' ' :: "X > 0".toList)
        = some (Outcome.fragment
            (if "X > 0".toList.isEmpty then "// Syntax error: IF without condition".toList
             else "// Syntax error: IF without THEN".toList)) :=
  ⟨by decide, by decide, by decide,
    if_without_then 0 "if".toList "X > 0".toList (by decide) (by decide) (by decide)⟩

/-- C4 fails as stated: the line `IF X = 5` has the command token IF and no THEN, yet
it is taken for an assignment and comes back as `IF X = 5;`. -/
theorem if_without_then_counterexample :
    strtok "IF X = 5".toList " ".toList = some ("IF".toList, "X = 5".toList)
    ∧ strcasestr "X = 5".toList "THEN".toList = none
    ∧ interpret_basic "IF X = 5".toList = some (Outcome.fragment "IF X = 5;".toList)
    ∧ "// Syntax error: IF".toList.isPrefixOf "IF X = 5;".toList = false := by
  decide

/-- C5 (amended): for every loop variable text `v` without `=`, every start text `a`
without an occurrence of TO and every end text `b` without an occurrence of STEP
(letter case ignored), and every integer literal `s` whose value `n` fits an
`int`: when the increment text has fewer than 20 characters, translating
`FOR v = a TO b STEP s` returns the first 1023 characters of
`for (int V = A; V CMP B; INC) {`, where `V`, `A`, `B` are `v`, `a`, `b` trimmed,
`CMP` is `<=` if `n ≥ 0` and `>=` otherwise, and `INC` is `V++` for `n = 1`,
`V--` for `n = -1` and `V += s` otherwise; it returns exactly that header when
the header has at most 1023 characters. -/
theorem for_with_step (v a b s : CStr) (n : Int) (hveq : '=' ∉ v)
    (hato : strcasestr a "TO".toList = none) (hbstep : strcasestr b "STEP".toList = none)
    (hlit : isIntLiteral s = true) (hval : atoi s = some n)
    (hinc : (forIncrement (trim v) s n).length < 20) :
    interpret_basic ("FOR ".toList ++ v ++ " = ".toList ++ a ++ " TO ".toList ++ b
          ++ " STEP ".toList ++ s)
        = some (Outcome.fragment (List.take 1023 (forHeader (trim v) (trim a) (trim b) s n)))
    ∧ ((forHeader (trim v) (trim a) (trim b) s n).length ≤ 1023 →
        interpret_basic ("FOR ".toList ++ v ++ " = ".toList ++ a ++ " TO ".toList ++ b
            ++ " STEP ".toList ++ s)
          = some (Outcome.fragment (forHeader (trim v) (trim a) (trim b) s n))) := by
  have e : "FOR ".toList ++ v ++ " = ".toList ++ a ++ " TO ".toList ++ b ++ " STEP ".toList ++ s
      = "FOR ".toList ++ (v ++ " = ".toList ++ a ++ " TO ".toList ++ b ++ " STEP ".toList ++ s) := by
    simp
  have h : interpret_basic ("FOR ".toList ++ v ++ " = ".toList ++ a ++ " TO ".toList ++ b
      ++ " STEP ".toList ++ s)
      = some (Outcome.fragment (List.take 1023 (forHeader (trim v) (trim a) (trim b) s n))) := by
    rw [e, interpret_basic_for _ (by simp),
      interpret_for_step v a b s hveq hato hbstep (isIntLiteral_trimmed s hlit)
        (isIntLiteral_ne_nil s hlit),
      generate_for_eq _ _ _ s n hval hinc]
  refine ⟨h, fun hlen => ?_⟩
  rw [h, List.take_of_length_le hlen]

/-- Witness of C5: `FOR I = 10 TO 1 STEP -1` gives `for (int I = 10; I >= 1; I--) {`. -/
theorem for_with_step_witness :
    '=' ∉ "I".toList ∧ strcasestr "10".toList "TO".toList = none
    ∧ strcasestr "1".toList "STEP".toList = none ∧ isIntLiteral "-1".toList = true
    ∧ atoi "-1".toList = some (-1)
    ∧ (forIncrement (trim "I".toList) "-1".toList (-1)).length < 20
    ∧ forHeader (trim "I".toList) (trim "10".toList) (trim "1".toList) "-1".toList (-1)
        = "for (int I = 10; I >= 1; I--) \x7b".toList
    ∧ interpret_basic ("FOR ".toList ++ "I".toList ++ " = ".toList ++ "10".toList
          ++ " TO ".toList ++ "1".toList ++ " STEP ".toList ++ "-1".toList)
        = some (Outcome.fragment
            (forHeader (trim "I".toList) (trim "10".toList) (trim "1".toList) "-1".toList (-1))) :=
  ⟨by decide, by decide, by decide, by decide, by decide, by decide, by decide,
    (for_with_step "I".toList "10".toList "1".toList "-1".toList (-1)
      (by decide) (by decide) (by decide) (by decide) (by decide) (by decide)).2 (by decide)⟩

/-- C5 fails as stated: a start text with a leading blank is trimmed in the header, a
start text of 1000 digits does not fit the buffer, and a loop variable of 18
letters overflows the 20-byte array `increment`. -/
theorem for_with_step_counterexample :
    interpret_basic ("FOR ".toList ++ "I".toList ++ " = ".toList ++ " 1".toList ++ " TO ".toList
          ++ "5".toList ++ " STEP ".toList ++ "2".toList)
        = some (Outcome.fragment "for (int I = 1; I <= 5; I += 2) \x7b".toList)
    ∧ interpret_basic ("FOR ".toList ++ "I".toList ++ " = ".toList ++ " 1".toList
          ++ " TO ".toList ++ "5".toList ++ " STEP ".toList ++ "2".toList)
        ≠ some (Outcome.fragment ("for (int ".toList ++ "I".toList ++ " = ".toList
            ++ " 1".toList ++ "; ".toList ++ "I".toList ++ " <= ".toList ++ "5".toList
            ++ "; ".toList ++ "I += 2".toList ++ ") \x7b".toList))
    ∧ interpret_basic ("FOR ".toList ++ "I".toList ++ " = ".toList ++ List.replicate 1000 '1'
          ++ " TO ".toList ++ "5".toList ++ " STEP ".toList ++ "2".toList)
        ≠ some (Outcome.fragment ("for (int ".toList ++ "I".toList ++ " = ".toList
            ++ List.replicate 1000 '1' ++ "; ".toList ++ "I".toList ++ " <= ".toList
            ++ "5".toList ++ "; ".toList ++ "I += 2".toList ++ ") \x7b".toList))
    ∧ interpret_basic "FOR ABCDEFGHIJKLMNOPQR = 1 TO 5 STEP 2".toList
        = some Outcome.undefined := by
  refine ⟨by decide, by decide, fun h => ?_, by decide⟩
  have := interpret_basic_length_le _ _ h
  simp only [List.length_append, List.length_replicate] at this
  exact absurd this (by decide)

/-- C6 (amended): for every identifier `v` of at most 17 characters, every start `a`
that is an identifier or integer literal without an occurrence of TO, and every
end `b` that is an identifier or integer literal without an occurrence of STEP
(letter case ignored), translating `FOR v = a TO b` returns the first 1023
characters of `for (int v = a; v <= b; v++) {`, hence exactly that header when
it has at most 1023 characters. -/
theorem for_without_step (v a b : CStr) (hv : isIdent v = true)
    (ha : isIdent a = true ∨ isIntLiteral a = true)
    (hb : isIdent b = true ∨ isIntLiteral b = true)
    (hato : strcasestr a "TO".toList = none) (hbstep : strcasestr b "STEP".toList = none)
    (hvlen : v.length ≤ 17) :
    interpret_basic ("FOR ".toList ++ v ++ " = ".toList ++ a ++ " TO ".toList ++ b)
        = some (Outcome.fragment (List.take 1023
            ("for (int ".toList ++ v ++ " = ".toList ++ a ++ "; ".toList ++ v ++ " <= ".toList
              ++ b ++ "; ".toList ++ v ++ "++) \x7b".toList)))
    ∧ (("for (int ".toList ++ v ++ " = ".toList ++ a ++ "; ".toList ++ v ++ " <= ".toList
          ++ b ++ "; ".toList ++ v ++ "++) \x7b".toList).length ≤ 1023 →
        interpret_basic ("FOR ".toList ++ v ++ " = ".toList ++ a ++ " TO ".toList ++ b)
          = some (Outcome.fragment
              ("for (int ".toList ++ v ++ " = ".toList ++ a ++ "; ".toList ++ v
                ++ " <= ".toList ++ b ++ "; ".toList ++ v ++ "++) \x7b".toList))) := by
  have hvt := isIdent_trimmed v hv
  have hat : trimmed a = true := ha.elim (isIdent_trimmed a) (isIntLiteral_trimmed a)
  have hbt : trimmed b = true := hb.elim (isIdent_trimmed b) (isIntLiteral_trimmed b)
  have hbne : b ≠ [] := hb.elim (isIdent_ne_nil b) (isIntLiteral_ne_nil b)
  have e : "FOR ".toList ++ v ++ " = ".toList ++ a ++ " TO ".toList ++ b
      = "FOR ".toList ++ (v ++ " = ".toList ++ a ++ " TO ".toList ++ b) := by simp
  have hh : forHeader v a b "1".toList 1
      = "for (int ".toList ++ v ++ " = ".toList ++ a ++ "; ".toList ++ v ++ " <= ".toList
          ++ b ++ "; ".toList ++ v ++ "++) \x7b".toList := by
    simp [forHeader, forComparison, forIncrement]
  have h : interpret_basic ("FOR ".toList ++ v ++ " = ".toList ++ a ++ " TO ".toList ++ b)
      = some (Outcome.fragment (List.take 1023 (forHeader v a b "1".toList 1))) := by
    rw [e, interpret_basic_for _ (by simp),
      interpret_for_nostep v a b (isIdent_not_mem v '=' hv (by decide)) hato hbt hbne hbstep,
      trim_of_trimmed v hvt, trim_of_trimmed a hat,
      generate_for_eq v a b "1".toList 1 (by decide) (by simp [forIncrement]; omega)]
  rw [hh] at h
  refine ⟨h, fun hlen => ?_⟩
  rw [h, List.take_of_length_le hlen]

/-- Witness of C6: `FOR I = 1 TO 10` gives `for (int I = 1; I <= 10; I++) {`. -/
theorem for_without_step_witness :
    isIdent "I".toList = true ∧ isIntLiteral "1".toList = true
    ∧ isIntLiteral "10".toList = true
    ∧ strcasestr "1".toList "TO".toList = none ∧ strcasestr "10".toList "STEP".toList = none
    ∧ "I".toList.length ≤ 17
    ∧ interpret_basic ("FOR ".toList ++ "I".toList ++ " = ".toList ++ "1".toList
          ++ " TO ".toList ++ "10".toList)
        = some (Outcome.fragment
            ("for (int ".toList ++ "I".toList ++ " = ".toList ++ "1".toList ++ "; ".toList
              ++ "I".toList ++ " <= ".toList ++ "10".toList ++ "; ".toList ++ "I".toList
              ++ "++) \x7b".toList)) :=
  ⟨by decide, by decide, by decide, by decide, by decide, by decide,
    (for_without_step "I".toList "1".toList "10".toList (by decide)
      (Or.inr (by decide)) (Or.inr (by decide)) (by decide) (by decide) (by decide)).2
      (by decide)⟩

/-- C6 fails as stated: TO and STEP are searched as substrings, so the identifiers
`TOP` (as start) and `STEPS` (as end) are cut at the keyword they contain; a
start of 1000 digits does not fit the buffer, and a loop variable of 18 letters
overflows the 20-byte array `increment`. -/
theorem for_without_step_counterexample :
    isIdent "I".toList = true ∧ isIdent "TOP".toList = true ∧ isIdent "STEPS".toList = true
    ∧ interpret_basic "FOR I = TOP TO 10".toList
        = some (Outcome.fragment "for (int I = ; I <= P TO 10; I++) \x7b".toList)
    ∧ interpret_basic "FOR I = TOP TO 10".toList
        ≠ some (Outcome.fragment "for (int I = TOP; I <= 10; I++) \x7b".toList)
    ∧ interpret_basic "FOR I = 1 TO STEPS".toList
        = some (Outcome.fragment "for (int I = 1; I <= ; I += S) \x7b".toList)
    ∧ interpret_basic "FOR I = 1 TO STEPS".toList
        ≠ some (Outcome.fragment "for (int I = 1; I <= STEPS; I++) \x7b".toList)
    ∧ interpret_basic ("FOR ".toList ++ "I".toList ++ " = ".toList ++ List.replicate 1000 '1'
          ++ " TO ".toList ++ "5".toList)
        ≠ some (Outcome.fragment ("for (int ".toList ++ "I".toList ++ " = ".toList
            ++ List.replicate 1000 '1' ++ "; ".toList ++ "I".toList ++ " <= ".toList
            ++ "5".toList ++ "; ".toList ++ "I".toList ++ "++) \x7b".toList))
    ∧ interpret_basic "FOR ABCDEFGHIJKLMNOPQR = 1 TO 5".toList = some Outcome.undefined := by
  refine ⟨by decide, by decide, by decide, by decide, by decide, by decide, by decide,
    fun h => ?_, by decide⟩
  have := interpret_basic_length_le _ _ h
  simp only [List.length_append, List.length_replicate] at this
  exact absurd this (by decide)

/-- C7 (amended): for every identifier `n` and every list of parameter identifiers,
each with blanks before and after it but none after `(` or before `)`, whose
declarations `int p1, ..., int pk` take fewer than 256 characters, translating
`FUNCTION n(p1,...,pk)` returns the first 1023 characters of
`int n(int p1, ..., int pk) {` (which is `int n() {` for no parameter), and
translating `FUNCTION n` returns the first 1023 characters of `int n() {`; the
header is returned whole when it has at most 1023 characters. -/
theorem function_header (n : CStr) (ps : List (Nat × CStr × Nat))
    (hn : isIdent n = true) (hps : ∀ p ∈ ps, isIdent p.2.1 = true)
    (htrim : trimmed (joinWith ",".toList (ps.map padded)) = true)
    (hfit : (joinWith ", ".toList (ps.map (fun p => "int ".toList ++ p.2.1))).length < 256) :
    (interpret_basic ("FUNCTION ".toList ++ n ++ "(".toList
          ++ joinWith ",".toList (ps.map padded) ++ ")".toList)
        = some (Outcome.fragment (List.take 1023
            ("int ".toList ++ n ++ "(".toList
              ++ joinWith ", ".toList (ps.map (fun p => "int ".toList ++ p.2.1))
              ++ ") \x7b".toList)))
      ∧ (("int ".toList ++ n ++ "(".toList
            ++ joinWith ", ".toList (ps.map (fun p => "int ".toList ++ p.2.1))
            ++ ") \x7b".toList).length ≤ 1023 →
          interpret_basic ("FUNCTION ".toList ++ n ++ "(".toList
              ++ joinWith ",".toList (ps.map padded) ++ ")".toList)
            = some (Outcome.fragment
                ("int ".toList ++ n ++ "(".toList
                  ++ joinWith ", ".toList (ps.map (fun p => "int ".toList ++ p.2.1))
                  ++ ") \x7b".toList))))
    ∧ (interpret_basic ("FUNCTION ".toList ++ n)
        = some (Outcome.fragment (List.take 1023 ("int ".toList ++ n ++ "() \x7b".toList)))
      ∧ (n.length ≤ 1015 →
          interpret_basic ("FUNCTION ".toList ++ n)
            = some (Outcome.fragment ("int ".toList ++ n ++ "() \x7b".toList)))) := by
  have hne := isIdent_ne_nil n hn
  have e : "FUNCTION ".toList ++ n ++ "(".toList ++ joinWith ",".toList (ps.map padded)
      ++ ")".toList
      = "FUNCTION ".toList ++ (n ++ "(".toList ++ joinWith ",".toList (ps.map padded)
          ++ ")".toList) := by simp
  have h1 : interpret_basic ("FUNCTION ".toList ++ n ++ "(".toList
      ++ joinWith ",".toList (ps.map padded) ++ ")".toList)
      = some (Outcome.fragment (List.take 1023
          ("int ".toList ++ n ++ "(".toList
            ++ joinWith ", ".toList (ps.map (fun p => "int ".toList ++ p.2.1))
            ++ ") \x7b".toList))) := by
    rw [e, interpret_basic_function _ (by simp [hne]),
      interpret_function_params n ps hn hps htrim hfit]
  have h2 : interpret_basic ("FUNCTION ".toList ++ n)
      = some (Outcome.fragment (List.take 1023 ("int ".toList ++ n ++ "() \x7b".toList))) := by
    rw [interpret_basic_function _ hne]
    simp only [interpret_function,
      strchr_eq_none_of_not_mem (isIdent_not_mem n '(' hn (by decide)), snprintf]
  refine ⟨⟨h1, fun hlen => ?_⟩, h2, fun hlen => ?_⟩
  · rw [h1, List.take_of_length_le hlen]
  · rw [h2, List.take_of_length_le]
    simp
    omega

/-- Witness of C7: `FUNCTION NAME(A , B)` gives `int NAME(int A, int B) {`, and
`FUNCTION NAME` gives `int NAME() {`. -/
theorem function_header_witness :
    isIdent "NAME".toList = true
    ∧ (∀ p ∈ [(0, "A".toList, 1), (1, "B".toList, 0)], isIdent p.2.1 = true)
    ∧ joinWith ",".toList ([(0, "A".toList, 1), (1, "B".toList, 0)].map padded)
        = "A , B".toList
    ∧ interpret_basic ("FUNCTION ".toList ++ "NAME".toList ++ "(".toList
          ++ joinWith ",".toList ([(0, "A".toList, 1), (1, "B".toList, 0)].map padded)
          ++ ")".toList)
        = some (Outcome.fragment
            ("int ".toList ++ "NAME".toList ++ "(".toList
              ++ joinWith ", ".toList
                  ([(0, "A".toList, 1), (1, "B".toList, 0)].map
                    (fun p => "int ".toList ++ p.2.1))
              ++ ") \x7b".toList))
    ∧ interpret_basic ("FUNCTION ".toList ++ "NAME".toList)
        = some (Outcome.fragment ("int ".toList ++ "NAME".toList ++ "() \x7b".toList)) :=
  ⟨by decide, by decide, by decide,
    ((function_header "NAME".toList [(0, "A".toList, 1), (1, "B".toList, 0)]
      (by decide) (by decide) (by decide) (by decide)).1).2 (by decide),
    ((function_header "NAME".toList [(0, "A".toList, 1), (1, "B".toList, 0)]
      (by decide) (by decide) (by decide) (by decide)).2).2 (by decide)⟩

set_option maxRecDepth 20000 in
/-- C7 fails as stated: a function name of 1100 letters does not fit the buffer, and
28 parameters of eight letters overflow the 256-byte array `param_list`. -/
theorem function_header_counterexample :
    interpret_basic ("FUNCTION ".toList ++ List.replicate 1100 'F' ++ "(".toList
          ++ "A".toList ++ ")".toList)
        ≠ some (Outcome.fragment ("int ".toList ++ List.replicate 1100 'F' ++ "(".toList
            ++ "int A".toList ++ ") \x7b".toList))
    ∧ interpret_basic ("FUNCTION F(".toList
          ++ joinWith ",".toList (List.replicate 28 "ABCDEFGH".toList) ++ ")".toList)
        = some Outcome.undefined := by
  refine ⟨fun h => ?_, by decide⟩
  have := interpret_basic_length_le _ _ h
  simp only [List.length_append, List.length_replicate] at this
  exact absurd this (by decide)

/-! ## The loop of `main` -/

theorem main_loop_cons (st : MainState) (line c_line : CStr) (more : List CStr)
    (h : interpret_basic line = some (Outcome.fragment c_line)) :
    main_loop st (line :: more) = main_loop (main_route st c_line) more := by
  simp only [main_loop, h]

theorem indentedLines_cons (f : CStr) (fs : List CStr) :
    indentedLines (f :: fs) = "  ".toList ++ f ++ "\n".toList ++ indentedLines fs := by
  simp [indentedLines]

/-- Lines whose fragments neither open nor close a function, met inside a
function: each is written to the output at once, indented by two blanks. -/
theorem main_loop_in_function (lfs : List (CStr × CStr)) (st : MainState) (more : List CStr)
    (hin : st.in_function = true)
    (h : ∀ p ∈ lfs, interpret_basic p.1 = some (Outcome.fragment p.2)
      ∧ is_function_definition p.2 = false ∧ p.2 ≠ "\x7dENDFUNCTION".toList) :
    main_loop st (lfs.map Prod.fst ++ more)
      = main_loop (MainState.mk (st.out ++ indentedLines (lfs.map Prod.snd)) true
          st.function_count st.statements) more := by
  induction lfs generalizing st with
  | nil =>
    obtain ⟨o, i, c, ss⟩ := st
    simp only at hin
    subst hin
    simp [indentedLines]
  | cons p lfs ih =>
    obtain ⟨hp1, hp2, hp3⟩ := h p (by simp)
    have hrest : ∀ q ∈ lfs, interpret_basic q.1 = some (Outcome.fragment q.2)
        ∧ is_function_definition q.2 = false ∧ q.2 ≠ "\x7dENDFUNCTION".toList :=
      fun q hq => h q (by simp [hq])
    rw [List.map_cons, List.cons_append, main_loop_cons st p.1 p.2 _ hp1]
    have hr : main_route st p.2 = MainState.mk (st.out ++ "  ".toList ++ p.2 ++ "\n".toList)
        true st.function_count st.statements := by
      simp only [main_route, hp2, hp3, hin, Bool.false_eq_true, if_false, false_and, if_true]
    rw [hr, ih _ rfl hrest]
    simp [indentedLines_cons]

/-- Lines whose fragments do not open a function, met outside a function: each
is appended to the buffer `statements` and nothing is written. -/
theorem main_loop_top_level (lfs : List (CStr × CStr)) (st : MainState)
    (hin : st.in_function = false)
    (h : ∀ p ∈ lfs, interpret_basic p.1 = some (Outcome.fragment p.2)
      ∧ is_function_definition p.2 = false) :
    main_loop st (lfs.map Prod.fst)
      = some (MainState.mk st.out false st.function_count
          (st.statements ++ lfs.map Prod.snd)) := by
  induction lfs generalizing st with
  | nil =>
    obtain ⟨o, i, c, ss⟩ := st
    simp only at hin
    subst hin
    simp [main_loop]
  | cons p lfs ih =>
    obtain ⟨hp1, hp2⟩ := h p (by simp)
    have hrest : ∀ q ∈ lfs, interpret_basic q.1 = some (Outcome.fragment q.2)
        ∧ is_function_definition q.2 = false :=
      fun q hq => h q (by simp [hq])
    rw [List.map_cons, main_loop_cons st p.1 p.2 _ hp1]
    have hr : main_route st p.2 = MainState.mk st.out false st.function_count
        (st.statements ++ [p.2]) := by
      simp only [main_route, hp2, hin, Bool.false_eq_true, if_false, and_false]
    rw [hr, ih _ rfl hrest]
    simp

/-- The block of a function in the loop of `main`: whatever the state, processing
`FUNCTION F(A)`, then lines whose fragments `main` takes neither for a function
definition nor for the close marker, then `ENDFUNCTION`, and then the lines
`more`, is processing `more` from the state in which the output has grown by
`int F(int A) {\n`, by `  fi\n` for each fragment in order and by `}\n\n`,
`in_function` is false, `function_count` has grown by one and the buffered
statements are unchanged (`lfs` pairs each line with its fragment). -/
theorem main_loop_function_block (st : MainState) (lfs : List (CStr × CStr))
    (more : List CStr)
    (h : ∀ p ∈ lfs, interpret_basic p.1 = some (Outcome.fragment p.2)
      ∧ is_function_definition p.2 = false ∧ p.2 ≠ "\x7dENDFUNCTION".toList) :
    main_loop st ("FUNCTION F(A)".toList :: (lfs.map Prod.fst ++ "ENDFUNCTION".toList :: more))
      = main_loop (MainState.mk
          (st.out ++ "int F(int A) \x7b\n".toList ++ indentedLines (lfs.map Prod.snd)
            ++ "\x7d\n\n".toList)
          false (st.function_count + 1) st.statements) more := by
  have h1 : interpret_basic "FUNCTION F(A)".toList
      = some (Outcome.fragment "int F(int A) \x7b".toList) := by decide
  have h2 : interpret_basic "ENDFUNCTION".toList
      = some (Outcome.fragment "\x7dENDFUNCTION".toList) := by decide
  have hr1 : main_route st "int F(int A) \x7b".toList
      = MainState.mk (st.out ++ "int F(int A) \x7b".toList ++ "\n".toList) true
          (st.function_count + 1) st.statements := by
    have : is_function_definition "int F(int A) \x7b".toList = true := by decide
    simp only [main_route, this, if_true]
  rw [main_loop_cons st _ _ _ h1, hr1, main_loop_in_function lfs _ _ rfl h,
    main_loop_cons _ _ _ _ h2]
  have hd : is_function_definition "\x7dENDFUNCTION".toList = false := by decide
  simp only [main_route, hd, Bool.false_eq_true, if_false, and_self, if_true]
  simp

/-- The round trip of a function, for body lines that `main` takes for
statements: the loop ends in the state in which the output has grown by
`int F(int A) {\n`, by `  fi\n` for each fragment in order and by `}\n\n`,
`in_function` is false, `function_count` has grown by one and the buffered
statements are unchanged. -/
theorem function_round_trip (st : MainState) (lfs : List (CStr × CStr))
    (h : ∀ p ∈ lfs, interpret_basic p.1 = some (Outcome.fragment p.2)
      ∧ is_function_definition p.2 = false ∧ p.2 ≠ "\x7dENDFUNCTION".toList) :
    main_loop st ("FUNCTION F(A)".toList :: (lfs.map Prod.fst ++ ["ENDFUNCTION".toList]))
      = some (MainState.mk
          (st.out ++ "int F(int A) \x7b\n".toList ++ indentedLines (lfs.map Prod.snd)
            ++ "\x7d\n\n".toList)
          false (st.function_count + 1) st.statements) := by
  rw [main_loop_function_block st lfs [] h]
  rfl

/-- An instance of the round trip: `FUNCTION F(A)`, `RETURN A`, `ENDFUNCTION` from
the initial state. -/
theorem function_round_trip_instance :
    main_loop main_init ["FUNCTION F(A)".toList, "RETURN A".toList, "ENDFUNCTION".toList]
      = some (MainState.mk
          "#include <stdio.h>\n\nint F(int A) \x7b\n  return A;\n\x7d\n\n".toList
          false 1 []) :=
  function_round_trip main_init [("RETURN A".toList, "return A;".toList)] (by decide)

/-- C8 (evaluation of the code): inside the function opened by `FUNCTION F(A)` the
line `LET S = F("{")` is an ordinary declaration, yet its fragment passes the
test of `main` for a function definition: it is written without the two blanks
of a body line and counted as a function, so after `ENDFUNCTION` the count has
grown by 2. -/
theorem function_round_trip_misfire :
    interpret_basic "LET S = F(\"\x7b\")".toList
        = some (Outcome.fragment "int S = F(\"\x7b\");".toList)
    ∧ is_function_definition "int S = F(\"\x7b\");".toList = true
    ∧ main_loop main_init
        ["FUNCTION F(A)".toList, "LET S = F(\"\x7b\")".toList, "ENDFUNCTION".toList]
      = some (MainState.mk
          "#include <stdio.h>\n\nint F(int A) \x7b\nint S = F(\"\x7b\");\n\x7d\n\n".toList
          false 2 []) := by
  decide

/-- Top-level buffering, for lines that `main` does not take for a function
definition: for every non-empty sequence of such lines, processed from the
initial state of `main`, the loop writes nothing (the output is still the
include line) and buffers the fragments in order, and the finished output is
the include line, `int main() {\n`, then `  f\n` for each fragment in order,
then `  return 0;\n}\n`. -/
theorem top_level_buffering (lfs : List (CStr × CStr)) (hne : lfs ≠ [])
    (h : ∀ p ∈ lfs, interpret_basic p.1 = some (Outcome.fragment p.2)
      ∧ is_function_definition p.2 = false) :
    main_loop main_init (lfs.map Prod.fst)
        = some (MainState.mk "#include <stdio.h>\n\n".toList false 0 (lfs.map Prod.snd))
    ∧ main (lfs.map Prod.fst)
        = some ("#include <stdio.h>\n\n".toList ++ "int main() \x7b\n".toList
            ++ indentedLines (lfs.map Prod.snd) ++ "  return 0;\n\x7d\n".toList) := by
  have hl := main_loop_top_level lfs main_init rfl h
  have hl2 : main_loop main_init (lfs.map Prod.fst)
      = some (MainState.mk "#include <stdio.h>\n\n".toList false 0 (lfs.map Prod.snd)) := by
    rw [hl]; simp [main_init]
  refine ⟨hl2, ?_⟩
  have hpos : (lfs.map Prod.snd).length > 0 := by
    cases lfs with
    | nil => exact absurd rfl hne
    | cons p ps => simp
  simp only [main, hl2, Option.map_some', main_finish, hpos, if_true, indentedLines]
  simp

/-- An instance of top-level buffering: `X = 5` then `PRINT X`. -/
theorem top_level_buffering_instance :
    main ["X = 5".toList, "PRINT X".toList]
      = some ("#include <stdio.h>\n\nint main() \x7b\n  X = 5;\n  printf(\"%d\\n\", X);\n  return 0;\n\x7d\n".toList) :=
  (top_level_buffering [("X = 5".toList, "X = 5;".toList),
    ("PRINT X".toList, "printf(\"%d\\n\", X);".toList)] (by decide) (by decide)).2

/-- C9 (evaluation of the code): the top-level line `LET S = F("{")` is no function
opening, yet its fragment passes the test of `main` for a function definition:
it is written at once instead of being buffered, and as a function has been
counted and nothing is buffered, no entry point `int main()` follows. -/
theorem top_level_buffering_misfire :
    interpret_basic "LET S = F(\"\x7b\")".toList
        = some (Outcome.fragment "int S = F(\"\x7b\");".toList)
    ∧ main_loop main_init ["LET S = F(\"\x7b\")".toList]
      = some (MainState.mk "#include <stdio.h>\n\nint S = F(\"\x7b\");\n".toList true 1 [])
    ∧ main ["LET S = F(\"\x7b\")".toList]
      = some "#include <stdio.h>\n\nint S = F(\"\x7b\");\n".toList := by
  decide

/-- C10: after its loop `main` writes an entry point `int main() {` exactly when the
buffer of statements is not empty or `function_count` is 0; with an empty buffer
and `function_count = 0` it writes `int main() {\n  return 0;\n}\n`, with an
empty buffer and `function_count ≥ 1` it writes nothing; for an input of zero
lines the output is the include line followed by that empty entry point. -/
theorem entry_point_emission (st : MainState) :
    ("int main() \x7b\n".toList.isPrefixOf (main_finish st) = true
        ↔ (st.statements ≠ [] ∨ st.function_count = 0))
    ∧ (st.statements = [] → st.function_count = 0 →
        main_finish st = "int main() \x7b\n  return 0;\n\x7d\n".toList)
    ∧ (st.statements = [] → st.function_count ≥ 1 → main_finish st = [])
    ∧ main [] = some ("#include <stdio.h>\n\n".toList
        ++ "int main() \x7b\n  return 0;\n\x7d\n".toList) := by
  obtain ⟨o, i, c, ss⟩ := st
  refine ⟨?_, ?_, ?_, by decide⟩
  · cases ss with
    | nil =>
      by_cases hc : c = 0
      · subst hc; simp +decide [main_finish]
      · simp +decide [main_finish, hc]
    | cons x xs => simp +decide [main_finish]
  · intro h1 h2
    simp only at h1 h2
    subst h1 h2
    rfl
  · intro h1 h2
    simp only at h1 h2
    subst h1
    have : c ≠ 0 := by omega
    simp [main_finish, this]

/-- Witness of C10 at a state with an empty buffer and one function. -/
theorem entry_point_emission_witness :
    (MainState.mk [] false 1 []).statements = []
    ∧ (MainState.mk [] false 1 []).function_count ≥ 1
    ∧ main_finish (MainState.mk [] false 1 []) = [] :=
  ⟨rfl, by decide, (entry_point_emission (MainState.mk [] false 1 [])).2.2.1 rfl (by decide)⟩

/-! ## Blanks before the command and the spelling of the command -/

theorem dropWhile_replicate_append (p : Char → Bool) (c : Char) (k : Nat) (s : CStr)
    (hc : p c = true) : (List.replicate k c ++ s).dropWhile p = s.dropWhile p := by
  induction k with
  | zero => simp
  | succ k ih => simp [List.replicate_succ, List.dropWhile_cons, hc, ih]

theorem strtok_replicate_append (k : Nat) (s : CStr) :
    strtok (List.replicate k ' ' ++ s) " ".toList = strtok s " ".toList := by
  unfold strtok
  rw [dropWhile_replicate_append _ ' ' k s (by decide)]

theorem not_mem_replicate_of_ne (k : Nat) (c d : Char) (h : d ≠ c) : d ∉ List.replicate k c :=
  fun hm => h (List.eq_of_mem_replicate hm)

/-- Without `=` in the line, blanks before it do not change the body of
`interpret_basic`. -/
theorem interpret_step_leading_blanks (r : CStr → Option Outcome) (k : Nat) (line : CStr)
    (h : '=' ∉ line) :
    interpret_step r (List.replicate k ' ' ++ line) = interpret_step r line := by
  have hc1 : strchr (List.replicate k ' ' ++ line) '=' = none :=
    strchr_eq_none_of_not_mem (by
      simp only [List.mem_append, not_or]
      exact ⟨not_mem_replicate_of_ne k ' ' '=' (by decide), h⟩)
  have hc2 : strchr line '=' = none := strchr_eq_none_of_not_mem h
  simp only [interpret_step, strtok_replicate_append, hc1, hc2, Option.isSome_none,
    Bool.false_and, Bool.false_eq_true, if_false]

theorem interpret_basic_leading_blanks (k : Nat) (line : CStr) (h : '=' ∉ line) :
    interpret_basic (List.replicate k ' ' ++ line) = interpret_basic line := by
  rw [interpret_basic_eq_step, interpret_basic_eq_step, interpret_step_leading_blanks _ k line h]
  apply interpret_step_congr
  intro y hy
  apply interpret_basic_fuel_eq
  · simp; omega
  · omega

theorem strcasecmp_prefix_of_word (k X r : CStr) (c : Char) (h : k.map tolower = X.map tolower)
    (hc : isspace c = true) : strcasecmp_prefix (k ++ c :: r) X = true := by
  induction k generalizing X with
  | nil =>
    cases X with
    | nil => simp [ strcasecmp_prefix, hc]
    | cons x X => simp at h
  | cons y k ih =>
    cases X with
    | nil => simp at h
    | cons x X =>
      simp only [List.map_cons, List.cons.injEq] at h
      simp [ strcasecmp_prefix, h.1, ih X h.2]

theorem keyword_letters :
    ∀ K ∈ keywords, ∀ w ∈ [' ', '\t', '\n', '\x0b', '\x0c', '\r', '='],
      tolower w ∉ K.map tolower := by
  decide

theorem keyword_ne_nil : ∀ K ∈ keywords, K ≠ [] := by decide

theorem spelling_chars (k K : CStr) (hK : K ∈ keywords) (h : strcasecmp k K = true) :
    ∀ c ∈ k, isspace c = false ∧ c ≠ '=' := by
  intro c hc
  constructor
  · cases hs : isspace c with
    | false => rfl
    | true =>
      exfalso
      have hm : c ∈ [' ', '\t', '\n', '\x0b', '\x0c', '\r', '='] := by
        simp only [isspace, Bool.or_eq_true, beq_iff_eq] at hs
        rcases hs with ((((hs | hs) | hs) | hs) | hs) | hs <;> subst hs <;> simp
      exact not_mem_of_strcasecmp k K c h (keyword_letters K hK c hm) hc
  · intro e
    subst e
    exact not_mem_of_strcasecmp k K '=' h (keyword_letters K hK '=' (by simp)) hc

theorem guard_false (a b c d : Bool) (h : b = true ∨ c = true ∨ d = true) :
    (a && not b && not c && not d) = false := by
  rcases h with h | h | h <;> subst h <;> simp

/-- The body of `interpret_basic` on a line made of a spelling of a keyword, a
blank and an argument text: the same as for the keyword itself, when the line
is not taken for an assignment. -/
theorem interpret_step_spelling (r : CStr → Option Outcome) (k K a : CStr)
    (hK : K ∈ keywords) (hk : strcasecmp k K = true)
    (hg : '=' ∉ a ∨ K ∈ ["LET".toList, "FUNCTION".toList, "FOR".toList]) :
    interpret_step r (k ++ ' ' :: a) = interpret_step r (K ++ ' ' :: a) := by
  have hKK : strcasecmp K K = true := by simp [strcasecmp]
  have hmap : k.map tolower = K.map tolower := by simpa [strcasecmp] using hk
  have hkc := spelling_chars k K hK hk
  have hKc := spelling_chars K K hK hKK
  have hkne := ne_nil_of_strcasecmp k K hk (keyword_ne_nil K hK)
  have hKne := keyword_ne_nil K hK
  have hksp : ' ' ∉ k := fun hm => by have := (hkc ' ' hm).1; simp [isspace] at this
  have hKsp : ' ' ∉ K := fun hm => by have := (hKc ' ' hm).1; simp [isspace] at this
  have ht1 : strtok (k ++ ' ' :: a) " ".toList = some (k, a) := by
    have := strtok_spaces_word_rest 0 k a hkne hksp
    simpa using this
  have ht2 : strtok (K ++ ' ' :: a) " ".toList = some (K, a) := by
    have := strtok_spaces_word_rest 0 K a hKne hKsp
    simpa using this
  have hg1 : ((strchr (k ++ ' ' :: a) '=').isSome
      && not ( strcasecmp_prefix (k ++ ' ' :: a) "LET".toList)
      && not ( strcasecmp_prefix (k ++ ' ' :: a) "FUNCTION".toList)
      && not ( strcasecmp_prefix (k ++ ' ' :: a) "FOR".toList)) = false := by
    rcases hg with hg | hg
    · have : strchr (k ++ ' ' :: a) '=' = none :=
        strchr_eq_none_of_not_mem (by
          simp only [List.mem_append, List.mem_cons, not_or]
          exact ⟨fun hm => (hkc '=' hm).2 rfl, by decide, hg⟩)
      simp [this]
    · simp only [List.mem_cons, List.mem_singleton, List.not_mem_nil, or_false] at hg
      apply guard_false
      rcases hg with hg | hg | hg <;> subst hg
      · exact Or.inl ( strcasecmp_prefix_of_word k _ a ' ' hmap (by decide))
      · exact Or.inr (Or.inl ( strcasecmp_prefix_of_word k _ a ' ' hmap (by decide)))
      · exact Or.inr (Or.inr ( strcasecmp_prefix_of_word k _ a ' ' hmap (by decide)))
  have hg2 : ((strchr (K ++ ' ' :: a) '=').isSome
      && not ( strcasecmp_prefix (K ++ ' ' :: a) "LET".toList)
      && not ( strcasecmp_prefix (K ++ ' ' :: a) "FUNCTION".toList)
      && not ( strcasecmp_prefix (K ++ ' ' :: a) "FOR".toList)) = false := by
    rcases hg with hg | hg
    · have : strchr (K ++ ' ' :: a) '=' = none :=
        strchr_eq_none_of_not_mem (by
          simp only [List.mem_append, List.mem_cons, not_or]
          exact ⟨fun hm => (hKc '=' hm).2 rfl, by decide, hg⟩)
      simp [this]
    · simp only [List.mem_cons, List.mem_singleton, List.not_mem_nil, or_false] at hg
      apply guard_false
      rcases hg with hg | hg | hg <;> subst hg
      · exact Or.inl ( strcasecmp_prefix_of_word _ _ a ' ' rfl (by decide))
      · exact Or.inr (Or.inl ( strcasecmp_prefix_of_word _ _ a ' ' rfl (by decide)))
      · exact Or.inr (Or.inr ( strcasecmp_prefix_of_word _ _ a ' ' rfl (by decide)))
  simp only [interpret_step, ht1, ht2, hg1, hg2, Bool.false_eq_true, if_false, strcasecmp, hmap]
  simp only [keywords, List.mem_cons, List.mem_singleton, List.not_mem_nil, or_false] at hK
  rcases hK with h | h | h | h | h | h | h | h | h | h | h <;> subst h <;> simp +decide

/-- The body of `interpret_basic` on a line that is a spelling of a keyword and
nothing else: the same as for the keyword itself. -/
theorem interpret_step_spelling_alone (r : CStr → Option Outcome) (k K : CStr)
    (hK : K ∈ keywords) (hk : strcasecmp k K = true) :
    interpret_step r k = interpret_step r K := by
  have hKK : strcasecmp K K = true := by simp [strcasecmp]
  have hmap : k.map tolower = K.map tolower := by simpa [strcasecmp] using hk
  have hkc := spelling_chars k K hK hk
  have hKc := spelling_chars K K hK hKK
  have hkne := ne_nil_of_strcasecmp k K hk (keyword_ne_nil K hK)
  have hKne := keyword_ne_nil K hK
  have hksp : ' ' ∉ k := fun hm => by have := (hkc ' ' hm).1; simp [isspace] at this
  have hKsp : ' ' ∉ K := fun hm => by have := (hKc ' ' hm).1; simp [isspace] at this
  have ht1 : strtok k " ".toList = some (k, []) := by
    have := strtok_spaces_word_end 0 k hkne hksp
    simpa using this
  have ht2 : strtok K " ".toList = some (K, []) := by
    have := strtok_spaces_word_end 0 K hKne hKsp
    simpa using this
  have hc1 : strchr k '=' = none :=
    strchr_eq_none_of_not_mem (fun hm => (hkc '=' hm).2 rfl)
  have hc2 : strchr K '=' = none :=
    strchr_eq_none_of_not_mem (fun hm => (hKc '=' hm).2 rfl)
  simp only [interpret_step, ht1, ht2, hc1, hc2, Option.isSome_none, Bool.false_and,
    Bool.false_eq_true, if_false, strcasecmp, hmap]
  simp only [keywords, List.mem_cons, List.mem_singleton, List.not_mem_nil, or_false] at hK
  rcases hK with h | h | h | h | h | h | h | h | h | h | h <;> subst h <;> simp +decide

theorem length_eq_of_strcasecmp (k K : CStr) (h : strcasecmp k K = true) :
    k.length = K.length := by
  have hmap : k.map tolower = K.map tolower := by simpa [strcasecmp] using h
  have := congrArg List.length hmap
  simpa using this

theorem interpret_basic_spelling_alone (k K : CStr) (hK : K ∈ keywords)
    (hk : strcasecmp k K = true) : interpret_basic k = interpret_basic K := by
  rw [interpret_basic_eq_step, interpret_basic_eq_step, length_eq_of_strcasecmp k K hk]
  exact interpret_step_spelling_alone _ k K hK hk

/-- A line whose first token is no keyword and that holds no `=`. -/
theorem interpret_step_unrecognized (r : CStr → Option Outcome) (line t saved : CStr)
    (hk : strtok line " ".toList = some (t, saved)) (heq : '=' ∉ line)
    (hnk : ∀ K ∈ keywords, strcasecmp t K = false) :
    interpret_step r line
      = some (Outcome.fragment (snprintf 1024 ("// Command not recognized: ".toList ++ t))) := by
  have hc : strchr line '=' = none := strchr_eq_none_of_not_mem heq
  have h1 := hnk "PRINT".toList (by decide)
  have h2 := hnk "LET".toList (by decide)
  have h3 := hnk "CHANGE".toList (by decide)
  have h4 := hnk "INPUT".toList (by decide)
  have h5 := hnk "FUNCTION".toList (by decide)
  have h6 := hnk "ENDFUNCTION".toList (by decide)
  have h7 := hnk "RETURN".toList (by decide)
  have h8 := hnk "FOR".toList (by decide)
  have h9 := hnk "NEXT".toList (by decide)
  have h10 := hnk "CALL".toList (by decide)
  have h11 := hnk "IF".toList (by decide)
  simp only [interpret_step, hk, hc, Option.isSome_none, Bool.false_and, Bool.false_eq_true,
    if_false, h1, h2, h3, h4, h5, h6, h7, h8, h9, h10, h11]

/-! ## The claims on the line as a whole -/

/-- C12 (amended): blanks before an input line that holds no `=` do not affect its
translation: the outcome for `k` blanks followed by the line is the outcome for
the line.  (Trailing white space, tabs and lines with `=` are kept as they
are.) -/
theorem leading_blanks_ignored (k : Nat) (line : CStr) (h : '=' ∉ line) :
    interpret_basic (List.replicate k ' ' ++ line) = interpret_basic line :=
  interpret_basic_leading_blanks k line h

/-- Witness of C12 at three blanks before `PRINT X`. -/
theorem leading_blanks_ignored_witness :
    '=' ∉ "PRINT X".toList
    ∧ interpret_basic (List.replicate 3 ' ' ++ "PRINT X".toList)
        = interpret_basic "PRINT X".toList :=
  ⟨by decide, leading_blanks_ignored 3 "PRINT X".toList (by decide)⟩

/-- C12 fails as stated: `PRINT "hi"` with a trailing blank is not translated like
its trimmed form `PRINT "hi"`, and `LET X = 5` after two blanks is not
translated like `LET X = 5`. -/
theorem leading_blanks_ignored_counterexample :
    trim "PRINT \"hi\" ".toList = "PRINT \"hi\"".toList
    ∧ interpret_basic "PRINT \"hi\" ".toList
        = some (Outcome.fragment "printf(\"%d\\n\", \"hi\" );".toList)
    ∧ interpret_basic (trim "PRINT \"hi\" ".toList)
        = some (Outcome.fragment "printf(\"%s\\n\", \"hi\");".toList)
    ∧ interpret_basic "PRINT \"hi\" ".toList ≠ interpret_basic (trim "PRINT \"hi\" ".toList)
    ∧ interpret_basic "  LET X = 5".toList = some (Outcome.fragment "  LET X = 5;".toList)
    ∧ interpret_basic (trim "  LET X = 5".toList)
        = some (Outcome.fragment "int X = 5;".toList) := by
  decide

/-- C13: for every keyword `K` of the vocabulary, every spelling `k` of `K` that
differs only in letter case and every argument text `a` such that `a` holds no
`=` or `K` is LET, FUNCTION or FOR: translating `k a` gives the same outcome as
translating `K a`. -/
theorem command_case_insensitive (K k a : CStr) (hK : K ∈ keywords)
    (hk : strcasecmp k K = true)
    (hg : '=' ∉ a ∨ K ∈ ["LET".toList, "FUNCTION".toList, "FOR".toList]) :
    interpret_basic (k ++ ' ' :: a) = interpret_basic (K ++ ' ' :: a) := by
  have hlen : (k ++ ' ' :: a).length = (K ++ ' ' :: a).length := by
    simp [length_eq_of_strcasecmp k K hk]
  rw [interpret_basic_eq_step, interpret_basic_eq_step, hlen]
  exact interpret_step_spelling _ k K a hK hk hg

/-- Witness of C13: `pRiNt X` against `PRINT X`, and `let X = 5` against
`LET X = 5`. -/
theorem command_case_insensitive_witness :
    "PRINT".toList ∈ keywords ∧ strcasecmp "pRiNt".toList "PRINT".toList = true
    ∧ interpret_basic ("pRiNt".toList ++ ' ' :: "X".toList)
        = interpret_basic ("PRINT".toList ++ ' ' :: "X".toList)
    ∧ interpret_basic ("let".toList ++ ' ' :: "X = 5".toList)
        = interpret_basic ("LET".toList ++ ' ' :: "X = 5".toList) :=
  ⟨by decide, by decide,
    command_case_insensitive "PRINT".toList "pRiNt".toList "X".toList (by decide) (by decide)
      (Or.inl (by decide)),
    command_case_insensitive "LET".toList "let".toList "X = 5".toList (by decide) (by decide)
      (Or.inr (by decide))⟩

/-- C14 (amended): for every line that holds no `=` and whose first blank-delimited
token `t` is not, letter case ignored, one of the eleven keywords,
`interpret_basic` returns the first 1023 characters of
`// Command not recognized: t`, hence exactly that comment when `t` has at most
996 characters.  The line is `k` blanks, the token, then nothing or one blank and
`rest`. -/
theorem command_not_recognized (k : Nat) (t rest : CStr) (ht : t ≠ []) (hsp : ' ' ∉ t)
    (heqt : '=' ∉ t) (heqr : '=' ∉ rest) (hnk : ∀ K ∈ keywords, strcasecmp t K = false) :
    (interpret_basic (List.replicate k ' ' ++ t)
        = some (Outcome.fragment (List.take 1023 ("// Command not recognized: ".toList ++ t)))
      ∧ interpret_basic (List.replicate k ' ' ++ t ++ ' ' :: rest)
        = some (Outcome.fragment (List.take 1023 ("// Command not recognized: ".toList ++ t))))
    ∧ (t.length ≤ 996 →
        interpret_basic (List.replicate k ' ' ++ t)
          = some (Outcome.fragment ("// Command not recognized: ".toList ++ t))
        ∧ interpret_basic (List.replicate k ' ' ++ t ++ ' ' :: rest)
          = some (Outcome.fragment ("// Command not recognized: ".toList ++ t))) := by
  have hrep : '=' ∉ List.replicate k ' ' := not_mem_replicate_of_ne k ' ' '=' (by decide)
  have h1 : interpret_basic (List.replicate k ' ' ++ t)
      = some (Outcome.fragment (List.take 1023 ("// Command not recognized: ".toList ++ t))) := by
    rw [interpret_basic_eq_step]
    exact interpret_step_unrecognized _ _ t [] (strtok_spaces_word_end k t ht hsp)
      (by simp only [List.mem_append, not_or]; exact ⟨hrep, heqt⟩) hnk
  have h2 : interpret_basic (List.replicate k ' ' ++ t ++ ' ' :: rest)
      = some (Outcome.fragment (List.take 1023 ("// Command not recognized: ".toList ++ t))) := by
    rw [interpret_basic_eq_step]
    exact interpret_step_unrecognized _ _ t rest (strtok_spaces_word_rest k t rest ht hsp)
      (by
        simp only [List.mem_append, List.mem_cons, not_or]
        exact ⟨⟨hrep, heqt⟩, by decide, heqr⟩) hnk
  refine ⟨⟨h1, h2⟩, fun hlen => ?_⟩
  have e : List.take 1023 ("// Command not recognized: ".toList ++ t)
      = "// Command not recognized: ".toList ++ t :=
    List.take_of_length_le (by simp; omega)
  rw [h1, h2, e]
  exact ⟨rfl, rfl⟩

/-- Witness of C14: `FOO 1 2` gives `// Command not recognized: FOO`. -/
theorem command_not_recognized_witness :
    "FOO".toList ≠ [] ∧ ' ' ∉ "FOO".toList ∧ '=' ∉ "FOO".toList ∧ '=' ∉ "1 2".toList
    ∧ (∀ K ∈ keywords, strcasecmp "FOO".toList K = false)
    ∧ interpret_basic (List.replicate 0 ' ' ++ "FOO".toList ++ ' ' :: "1 2".toList)
        = some (Outcome.fragment ("// Command not recognized: ".toList ++ "FOO".toList)) :=
  ⟨by decide, by decide, by decide, by decide, by decide,
    ((command_not_recognized 0 "FOO".toList "1 2".toList (by decide) (by decide) (by decide)
      (by decide) (by decide)).2 (by decide)).2⟩

/-- C14 fails as stated: for a token of 1000 letters `Q` the comment does not hold
the whole token. -/
theorem command_not_recognized_counterexample :
    interpret_basic (List.replicate 1000 'Q')
      ≠ some (Outcome.fragment ("// Command not recognized: ".toList ++ List.replicate 1000 'Q')) := by
  intro h
  have := interpret_basic_length_le _ _ h
  rw [List.length_append, List.length_replicate] at this
  exact absurd this (by decide)

/-- C15: a line that is just the keyword LET, CHANGE, INPUT or CALL, in any letter
case, is translated to the syntax-error comment of that command. -/
theorem missing_argument (k : CStr) :
    (strcasecmp k "LET".toList = true →
      interpret_basic k
        = some (Outcome.fragment "// Syntax error: LET without variable".toList))
    ∧ (strcasecmp k "CHANGE".toList = true →
      interpret_basic k
        = some (Outcome.fragment "// Syntax error: CHANGE without assignment".toList))
    ∧ (strcasecmp k "INPUT".toList = true →
      interpret_basic k
        = some (Outcome.fragment "// Syntax error: INPUT without variable".toList))
    ∧ (strcasecmp k "CALL".toList = true →
      interpret_basic k
        = some (Outcome.fragment "// Syntax error: CALL without function".toList)) := by
  refine ⟨fun h => ?_, fun h => ?_, fun h => ?_, fun h => ?_⟩
  · rw [interpret_basic_spelling_alone k _ (by decide) h]; decide
  · rw [interpret_basic_spelling_alone k _ (by decide) h]; decide
  · rw [interpret_basic_spelling_alone k _ (by decide) h]; decide
  · rw [interpret_basic_spelling_alone k _ (by decide) h]; decide

/-- Witness of C15 at the lines `LET`, `change`, `Input` and `CALL`. -/
theorem missing_argument_witness :
    interpret_basic "LET".toList
        = some (Outcome.fragment "// Syntax error: LET without variable".toList)
    ∧ interpret_basic "change".toList
        = some (Outcome.fragment "// Syntax error: CHANGE without assignment".toList)
    ∧ interpret_basic "Input".toList
        = some (Outcome.fragment "// Syntax error: INPUT without variable".toList)
    ∧ interpret_basic "CALL".toList
        = some (Outcome.fragment "// Syntax error: CALL without function".toList) :=
  ⟨(missing_argument "LET".toList).1 (by decide),
    (missing_argument "change".toList).2.1 (by decide),
    (missing_argument "Input".toList).2.2.1 (by decide),
    (missing_argument "CALL".toList).2.2.2 (by decide)⟩

theorem isIdent_replicate (k : Nat) (c : Char) (hc : isIdentChar c = true) :
    isIdent (List.replicate (k + 1) c) = true := by
  simp only [isIdent, Bool.and_eq_true, List.all_eq_true]
  refine ⟨by simp [List.replicate_succ], fun x hx => ?_⟩
  rw [List.eq_of_mem_replicate hx]
  exact hc

/-- C17 (amended): for every identifier `X` (a non-empty run of letters, digits and
underscores), translating `PRINT X` returns the first 1023 characters of
`printf("%d\n", X);`, hence exactly that fragment when `X` has at most 1006
characters. -/
theorem print_identifier (X : CStr) (hX : isIdent X = true) :
    interpret_basic ("PRINT ".toList ++ X)
        = some (Outcome.fragment (List.take 1023 ("printf(\"%d\\n\", ".toList ++ X ++ ");".toList)))
    ∧ (X.length ≤ 1006 →
        interpret_basic ("PRINT ".toList ++ X)
          = some (Outcome.fragment ("printf(\"%d\\n\", ".toList ++ X ++ ");".toList))) := by
  have hne := isIdent_ne_nil X hX
  have hk : strtok ("PRINT ".toList ++ X) " ".toList = some ("PRINT".toList, X) := by
    have := strtok_spaces_word_rest 0 "PRINT".toList X (by simp) (by simp)
    simpa using this
  have hc : strchr ("PRINT ".toList ++ X) '=' = none :=
    strchr_eq_none_of_not_mem (by
      simp only [List.mem_append, not_or]
      exact ⟨by decide, isIdent_not_mem X '=' hX (by decide)⟩)
  have hargs : (strtok X []).map Prod.fst = some X := by
    rw [strtok_nil_delim]; simp [hne]
  have hq : ¬ (X.head? = some '"' ∧ X.getLast? = some '"') := by
    intro hh
    exact isIdent_not_mem X '"' hX (by decide) (List.mem_of_mem_head? hh.1)
  have h : interpret_basic ("PRINT ".toList ++ X)
      = some (Outcome.fragment (List.take 1023 ("printf(\"%d\\n\", ".toList ++ X ++ ");".toList))) := by
    rw [interpret_basic_eq_step]
    simp only [interpret_step, hk, hc, hargs, Option.isSome_none, Bool.false_and,
      Bool.false_eq_true, if_false, hq, snprintf]
    simp +decide
  refine ⟨h, fun hlen => ?_⟩
  rw [h, List.take_of_length_le]
  simp
  omega

/-- Witness of C17: `PRINT X` gives `printf("%d\n", X);`. -/
theorem print_identifier_witness :
    isIdent "X".toList = true
    ∧ interpret_basic ("PRINT ".toList ++ "X".toList)
        = some (Outcome.fragment ("printf(\"%d\\n\", ".toList ++ "X".toList ++ ");".toList)) :=
  ⟨by decide, (print_identifier "X".toList (by decide)).2 (by decide)⟩

/-- C17 fails as stated: for an identifier of 1100 letters the call does not fit the
buffer. -/
theorem print_identifier_counterexample :
    isIdent (List.replicate 1100 'X') = true
    ∧ interpret_basic ("PRINT ".toList ++ List.replicate 1100 'X')
        ≠ some (Outcome.fragment
            ("printf(\"%d\\n\", ".toList ++ List.replicate 1100 'X' ++ ");".toList)) := by
  refine ⟨isIdent_replicate 1099 'X' (by decide), fun h => ?_⟩
  have := interpret_basic_length_le _ _ h
  rw [List.length_append, List.length_append, List.length_replicate] at this
  exact absurd this (by decide)

/-- C18 (amended): for every line that consists only of blanks (or of nothing at
all), `interpret_basic` returns the empty-command fragment `// Empty command`
followed by a newline character. -/
theorem blank_line (k : Nat) :
    interpret_basic (List.replicate k ' ')
      = some (Outcome.fragment "// Empty command\n".toList) := by
  have e : List.replicate k ' ' = List.replicate k ' ' ++ [] := by simp
  rw [e, interpret_basic_leading_blanks k [] (by simp)]
  decide

/-- C18 fails as stated: a line that holds one tab is an unrecognized command, and
the empty-command fragment is not `// Empty command` but that text and a
newline. -/
theorem blank_line_counterexample :
    isspace '\t' = true
    ∧ interpret_basic ['\t']
        = some (Outcome.fragment ("// Command not recognized: ".toList ++ ['\t']))
    ∧ interpret_basic ['\t'] ≠ some (Outcome.fragment "// Empty command".toList)
    ∧ interpret_basic [] ≠ some (Outcome.fragment "// Empty command".toList) := by
  decide

/-! ## The claims on the state of `main` -/

/-- C11 (evaluation of the code): an `ENDFUNCTION` line met outside a function is
not dropped: its marker is appended to the buffered statements and `main`
writes it into the entry point. -/
theorem endfunction_outside_function :
    interpret_basic "ENDFUNCTION".toList = some (Outcome.fragment "\x7dENDFUNCTION".toList)
    ∧ main_loop main_init ["ENDFUNCTION".toList]
        = some (MainState.mk "#include <stdio.h>\n\n".toList false 0 ["\x7dENDFUNCTION".toList])
    ∧ main ["ENDFUNCTION".toList]
        = some ("#include <stdio.h>\n\nint main() \x7b\n  \x7dENDFUNCTION\n  return 0;\n\x7d\n".toList) := by
  decide

/-- C16 (evaluation of the code): on a `FOR` line whose loop variable has 26 letters
the unchecked `sprintf` into the 20-byte array `increment` overflows, so the
call has no defined result. -/
theorem interpret_basic_overflow :
    interpret_basic "FOR ABCDEFGHIJKLMNOPQRSTUVWXYZ = 1 TO 5".toList = some Outcome.undefined := by
  decide

theorem main_route_statements (st : MainState) (c_line : CStr) :
    (main_route st c_line).statements
      = if st.in_function = false ∧ is_function_definition c_line = false
        then st.statements ++ [c_line] else st.statements := by
  unfold main_route
  split_ifs <;> simp_all

theorem main_route_out (st : MainState) (c_line : CStr) (hin : st.in_function = true) :
    (main_route st c_line).out
      = st.out ++ (if is_function_definition c_line then c_line ++ "\n".toList
          else if c_line = "\x7dENDFUNCTION".toList then "\x7d\n\n".toList
          else "  ".toList ++ c_line ++ "\n".toList) := by
  unfold main_route
  split_ifs <;> simp_all

theorem main_loop_statements (lines : List CStr) (st st' : MainState)
    (h : main_loop st lines = some st') :
    st'.statements = st.statements
      ++ ((main_trace st lines).filter
            (fun p => !p.1.in_function && !is_function_definition p.2)).map Prod.snd := by
  induction lines generalizing st with
  | nil =>
    simp only [main_loop, Option.some.injEq] at h
    subst h
    simp [main_trace]
  | cons line more ih =>
    cases hl : interpret_basic line with
    | none => simp [main_loop, hl] at h
    | some o =>
      cases o with
      | fragment c_line =>
        simp only [main_loop, hl] at h
        have := ih _ h
        rw [this, main_route_statements]
        obtain ⟨o, i, n, ss⟩ := st
        cases hd : is_function_definition c_line <;> cases i <;>
          simp [main_trace, hl, hd]
      | null =>
        simp only [main_loop, hl, Option.some.injEq] at h
        subst h
        simp [main_trace, hl]
      | undefined => simp [main_loop, hl] at h

/-- C19: the buffer of top-level statements only receives fragments met while
`in_function` is false.  In a state with `in_function` true, processing a line
with fragment `f` leaves the buffer unchanged and writes to the output (`f` and
a newline for a function definition, `}` and a blank line for the close marker,
otherwise `f` indented).  After any run of the loop the buffer is what it was
before, followed by the fragments of exactly those steps that were taken with
`in_function` false and whose fragment is no function definition; from the
initial state every buffered entry comes from such a step. -/
theorem buffer_only_outside_function :
    (∀ (st : MainState) (line f : CStr), st.in_function = true →
      interpret_basic line = some (Outcome.fragment f) →
      main_loop st [line] = some (main_route st f)
      ∧ (main_route st f).statements = st.statements
      ∧ (main_route st f).out
          = st.out ++ (if is_function_definition f then f ++ "\n".toList
              else if f = "\x7dENDFUNCTION".toList then "\x7d\n\n".toList
              else "  ".toList ++ f ++ "\n".toList))
    ∧ (∀ (st st' : MainState) (lines : List CStr), main_loop st lines = some st' →
      st'.statements = st.statements
        ++ ((main_trace st lines).filter
              (fun p => !p.1.in_function && !is_function_definition p.2)).map Prod.snd)
    ∧ (∀ (st' : MainState) (lines : List CStr), main_loop main_init lines = some st' →
      ∀ e ∈ st'.statements,
        ∃ p ∈ main_trace main_init lines, p.1.in_function = false ∧ p.2 = e) := by
  refine ⟨fun st line f hin hf => ?_, fun st st' lines h => main_loop_statements lines st st' h,
    fun st' lines h e he => ?_⟩
  · refine ⟨by simp [main_loop, hf], ?_, main_route_out st f hin⟩
    rw [main_route_statements]
    simp [hin]
  · rw [main_loop_statements lines main_init st' h] at he
    simp only [main_init, List.nil_append, List.mem_map, List.mem_filter, Bool.and_eq_true,
      Bool.not_eq_true'] at he
    obtain ⟨p, ⟨hp, hpin, _⟩, hpe⟩ := he
    exact ⟨p, hp, hpin, hpe⟩

/-- Witness of C19: inside a function `X = 5` is written, not buffered; and after
`X = 5`, `FUNCTION F(A)`, `RETURN A` from the initial state the buffer holds
`X = 5;` only. -/
theorem buffer_only_outside_function_witness :
    (MainState.mk [] true 1 []).in_function = true
    ∧ interpret_basic "X = 5".toList = some (Outcome.fragment "X = 5;".toList)
    ∧ (main_route (MainState.mk [] true 1 []) "X = 5;".toList).statements
        = (MainState.mk [] true 1 []).statements
    ∧ (∀ st', main_loop main_init ["X = 5".toList, "FUNCTION F(A)".toList, "RETURN A".toList]
          = some st' →
        ∀ e ∈ st'.statements,
          ∃ p ∈ main_trace main_init
              ["X = 5".toList, "FUNCTION F(A)".toList, "RETURN A".toList],
            p.1.in_function = false ∧ p.2 = e) :=
  ⟨rfl, by decide,
    (buffer_only_outside_function.1 (MainState.mk [] true 1 []) "X = 5".toList "X = 5;".toList
      rfl (by decide)).2.1,
    fun st' h => buffer_only_outside_function.2.2 st' _ h⟩

/-- C20 (evaluation of the code): the line `LET X(){` is no FUNCTION line, yet its
fragment `int X(){;` passes the test of `main` for a function definition: it is
written to the output at once, `in_function` becomes true and `function_count`
becomes 1. -/
theorem let_line_opens_function :
    interpret_basic "LET X()\x7b".toList = some (Outcome.fragment "int X()\x7b;".toList)
    ∧ is_function_definition "int X()\x7b;".toList = true
    ∧ main_loop main_init ["LET X()\x7b".toList]
        = some (MainState.mk "#include <stdio.h>\n\nint X()\x7b;\n".toList true 1 []) := by
  decide

end BASIC
